import Mathlib

/-!
# Verification of `doped` finite-size charge-correction orchestration

A shallow embedding of `src/doped/corrections.py` (the eFNV/Kumagai and
FNV/Freysoldt charge-correction entry points) together with theorems that
settle the frozen claims about it.

Conventions of the embedding:

* Python floats are modelled as exact rationals (`ℚ`); float literals in the
  source become the corresponding decimal rationals.
* Fallible Python code (raised exceptions, out-of-range indexing) is modelled
  with `Except CorrErr`.
* External collaborators (pymatgen lattice geometry, the pydefect Ewald engine
  and structure comparator) are modelled as an explicit environment record
  `ExternalEnv` of opaque functions: the repository code under verification
  only *calls* them, so every theorem quantifies over the environment.
* Pieces of the system that the spec covers but whose code is not under
  `src/` carry a doc comment starting `Modelled from the spec:`.
-/

namespace Doped

/-- Fractional coordinates / 3-vectors. -/
abbrev Vec3 := Fin 3 → ℚ

/-- 3×3 matrices (lattice matrices, dielectric tensors). -/
abbrev Mat3 := Fin 3 → Fin 3 → ℚ

/-- `numpy.isclose a b` : `|a - b| ≤ atol + rtol * |b|`. -/
def npIsClose (rtol atol a b : ℚ) : Prop := |a - b| ≤ atol + rtol * |b|

instance (rtol atol a b : ℚ) : Decidable (npIsClose rtol atol a b) := by
  unfold npIsClose
  infer_instance

/-- `numpy.allclose` over 3×3 matrices, element-wise `npIsClose`. -/
def npAllClose (rtol atol : ℚ) (m1 m2 : Mat3) : Prop :=
  ∀ i j : Fin 3, npIsClose rtol atol (m1 i j) (m2 i j)

instance (rtol atol : ℚ) (m1 m2 : Mat3) : Decidable (npAllClose rtol atol m1 m2) := by
  unfold npAllClose
  infer_instance

/-- pymatgen `Lattice.__eq__`: `np.allclose(self.matrix, other.matrix)` with the
numpy defaults `rtol = 1e-5`, `atol = 1e-8` (external collaborator semantics). -/
def latticeEq (m1 m2 : Mat3) : Prop := npAllClose (1/100000) (1/100000000) m1 m2

instance (m1 m2 : Mat3) : Decidable (latticeEq m1 m2) := by
  unfold latticeEq
  infer_instance

/-- Determinant of a 3×3 matrix, written out explicitly. -/
def det3 (m : Mat3) : ℚ :=
    m 0 0 * (m 1 1 * m 2 2 - m 1 2 * m 2 1)
  - m 0 1 * (m 1 0 * m 2 2 - m 1 2 * m 2 0)
  + m 0 2 * (m 1 0 * m 2 1 - m 1 1 * m 2 0)

/-- pymatgen `Lattice.volume` = |det(matrix)|. -/
def latticeVolume (m : Mat3) : ℚ := |det3 m|

/-- One site of a pymatgen `Structure`: species string and fractional coords. -/
structure Site where
  specie : String
  frac_coords : Vec3
deriving DecidableEq

/-- A pymatgen `Structure`: lattice matrix plus ordered list of sites.
(`remove_oxidation_states` is a no-op here: species are plain strings.) -/
structure PmgStructure where
  latticeMatrix : Mat3
  sites : List Site
deriving DecidableEq

/-- pydefect `PotentialSite`: species, distance from the defect centre,
potential difference (defect − bulk), optional point-charge model potential. -/
structure PotentialSite where
  specie : String
  distance : ℚ
  potential : ℚ
  pc_potential : Option ℚ
deriving DecidableEq, Repr

/-- pydefect `ExtendedFnvCorrection` as constructed by
`doped_make_efnv_correction` (src/doped/corrections.py lines 485-491). -/
structure ExtendedFnvCorrection where
  charge : ℚ
  point_charge_correction : ℚ
  defect_region_radius : ℚ
  sites : List PotentialSite
  defect_coords : Vec3
deriving DecidableEq

/-- Modelled from the spec: pydefect's `ExtendedFnvCorrection.correction_energy`
property (external to `src/`). Spec §4.3 step 7 / §9: "the returned correction
is the point-charge term alone, with the alignment offset used only for
diagnostics/error estimation". -/
def ExtendedFnvCorrection.correction_energy (c : ExtendedFnvCorrection) : ℚ :=
  c.point_charge_correction

/-- Sampled alignment values: `potential-difference − model-potential` for the
sites that carry a model potential. -/
def sampleValues (sites : List PotentialSite) : List ℚ :=
  sites.filterMap (fun s => s.pc_potential.map (fun pc => s.potential - pc))

/-- Mean of a list of rationals (0 for the empty list, by `ℚ` division). -/
def listMean (l : List ℚ) : ℚ := l.sum / (l.length : ℚ)

/-- Modelled from the spec: the fitted alignment constant `ave_pot_diff`
(pydefect, external to `src/`): "the mean of (potential-difference −
model-potential) over all sites with a model potential assigned" (§4.3 step 6). -/
def ExtendedFnvCorrection.ave_pot_diff (c : ExtendedFnvCorrection) : ℚ :=
  listMean (sampleValues c.sites)

/-- pydefect `CalcResults` (the `energy` / `magnetization` fields, set to
`np.inf` and never read by the code under verification, are omitted). -/
structure CalcResults where
  struct : PmgStructure
  potentials : List ℚ
deriving DecidableEq

/-- Errors raised by the embedded code.  Python classes are mapped as:
`supercellError` ↦ pydefect `SupercellError`; `valueError` ↦ `ValueError`;
`missingInput name` ↦ the `ValueError` raised by
`_check_if_None_and_raise_error_if_so` whose message names `name`;
`incompleteOutcar dir` ↦ the `ValueError` of `_raise_incomplete_outcar_error`
naming the `dir` ("defect"/"bulk") side; `indexError` ↦ Python `IndexError`
from list indexing. -/
inductive CorrErr where
  | supercellError (msg : String)
  | valueError (msg : String)
  | missingInput (display_name : String)
  | incompleteOutcar (dir_type : String)
  | indexError
deriving DecidableEq, Repr

/-- Which embedded errors correspond to Python `ValueError`s. -/
def CorrErr.isValueError : CorrErr → Bool
  | .supercellError _ => false
  | .valueError _ => true
  | .missingInput _ => true
  | .incompleteOutcar _ => true
  | .indexError => false

/-- Environment of external-collaborator functions called by
`src/doped/corrections.py` but implemented outside it (pymatgen geometry,
pydefect's structure comparator and Ewald engine).  The code under
verification treats them as black boxes, so theorems quantify over them. -/
structure ExternalEnv where
  /-- pymatgen `lattice.get_distance_and_image(a, b)`, distance component. -/
  getDistance : Mat3 → Vec3 → Vec3 → ℚ
  /-- pydefect `Ewald(lattice, dielectric, accuracy).lattice_energy`. -/
  ewaldLatticeEnergy : Mat3 → Mat3 → ℚ → ℚ
  /-- pydefect `Ewald(...).atomic_site_potential(rel_coord)`. -/
  ewaldAtomicSitePotential : Mat3 → Mat3 → ℚ → Vec3 → ℚ
  /-- pydefect `calc_max_sphere_radius(lattice_matrix)`; per the spec this is
  "the maximum inscribed (Wigner–Seitz) sphere radius of the supercell". -/
  calcMaxSphereRadius : Mat3 → ℚ
  /-- pydefect `DefectStructureComparator(defect, bulk).atom_mapping.items()`:
  pairs (defect site index, bulk site index). -/
  atomMapping : PmgStructure → PmgStructure → List (ℕ × ℕ)
  /-- pydefect `DefectStructureComparator(...).defect_center_coord`. -/
  defectCenterCoord : PmgStructure → PmgStructure → Vec3
  /-- pymatgen `Structure.scale_lattice(volume)`: lattice matrix rescaled to
  the given volume preserving directions and length ratios. -/
  scaleLattice : Mat3 → ℚ → Mat3
  /-- pydefect `defaults.ewald_accuracy`. -/
  ewaldAccuracyDefault : ℚ

/-- `structure[i]` for a pymatgen structure: `IndexError` when out of range. -/
def getSiteAt (s : PmgStructure) (i : ℕ) : Except CorrErr Site :=
  match s.sites.get? i with
  | some site => .ok site
  | none => .error .indexError

/-- `potentials[i]`: `IndexError` when out of range. -/
def getPotAt (l : List ℚ) (i : ℕ) : Except CorrErr ℚ :=
  match l.get? i with
  | some v => .ok v
  | none => .error .indexError

/-- Monadic map over a list in `Except`, mirroring Python's accumulating
`for` loop with possible raises. -/
def exceptMapList (f : α → Except CorrErr β) : List α → Except CorrErr (List β)
  | [] => .ok []
  | a :: as => do
    let b ← f a
    let bs ← exceptMapList f as
    pure (b :: bs)

/-- The body of the site-building loop of `doped_make_efnv_correction`
(src/doped/corrections.py lines 461-469) for one `(d, p)` atom-mapping pair:
builds the `PotentialSite` (with `pc_potential = None`) and the relative
coordinate `coord - defect_coords`. -/
def sitePair (env : ExternalEnv) (calc_results perfect_calc_results : CalcResults)
    (lattice : Mat3) (defect_coords : Vec3) (dp : ℕ × ℕ) :
    Except CorrErr (PotentialSite × Vec3) := do
  let dsite ← getSiteAt calc_results.struct dp.1
  let dpot ← getPotAt calc_results.potentials dp.1
  let ppot ← getPotAt perfect_calc_results.potentials dp.2
  pure (⟨dsite.specie, env.getDistance lattice defect_coords dsite.frac_coords,
         dpot - ppot, none⟩,
        fun k => dsite.frac_coords k - defect_coords k)

/-- The `pc_potential` assignment loop of `doped_make_efnv_correction`
(src/doped/corrections.py lines 478-483) for one `(site, rel_coord)` pair. -/
def assignPcPotential (env : ExternalEnv) (lattice dielectric_tensor : Mat3)
    (accuracy charge unit_conversion defect_region_radius : ℚ)
    (sr : PotentialSite × Vec3) : PotentialSite :=
  if sr.1.distance > defect_region_radius then
    { sr.1 with
      pc_potential :=
        if charge = 0 then some 0
        else some (env.ewaldAtomicSitePotential lattice dielectric_tensor accuracy sr.2
                    * charge * unit_conversion) }
  else sr.1

/-- The fixed unit-conversion default of `doped_make_efnv_correction`
(`elementary_charge * 1e10 / epsilon_0`). -/
def unitConversionDefault : ℚ := 180.95128169876497

/-- Shallow embedding of `doped_make_efnv_correction`
(src/doped/corrections.py lines 420-491). -/
def doped_make_efnv_correction (env : ExternalEnv) (charge : ℚ)
    (calc_results perfect_calc_results : CalcResults) (dielectric_tensor : Mat3)
    (defect_region_radius : Option ℚ) (defect_coords : Option Vec3)
    (accuracy : ℚ) (unit_conversion : ℚ) (excluded_indices : Option (List ℕ)) :
    Except CorrErr ExtendedFnvCorrection :=
  if latticeEq calc_results.struct.latticeMatrix perfect_calc_results.struct.latticeMatrix then
    let defect_coords := defect_coords.getD
      (env.defectCenterCoord calc_results.struct perfect_calc_results.struct)
    let lattice := calc_results.struct.latticeMatrix
    let excluded := excluded_indices.getD []
    do
      let pairs ← exceptMapList
        (sitePair env calc_results perfect_calc_results lattice defect_coords)
        ((env.atomMapping calc_results.struct perfect_calc_results.struct).filter
          (fun dp => !(excluded.contains dp.1)))
      let point_charge_correction :=
        if charge = 0 then 0
        else -(env.ewaldLatticeEnergy lattice dielectric_tensor accuracy) * charge ^ 2
      let r := defect_region_radius.getD (env.calcMaxSphereRadius lattice)
      let sites := pairs.map
        (assignPcPotential env lattice dielectric_tensor accuracy charge unit_conversion r)
      pure ⟨charge, point_charge_correction * unit_conversion, r, sites, defect_coords⟩
  else
    .error (.supercellError "The lattice constants for defect and perfect models are different")

/-- The possible shapes of a user-supplied dielectric constant
(float/int, 3-vector, or 3×3 matrix). -/
inductive DielectricInput where
  | scalar (d : ℚ)
  | vec (v : List ℚ)
  | mat (m : List (List ℚ))
deriving DecidableEq, Repr

/-- Modelled from the spec: `_convert_dielectric_to_tensor` lives in
`doped.analysis`, which is not under `src/`.  Spec §4.1: "scalar → isotropic
tensor (scalar × identity); length-3 → diagonal tensor; 3×3 → passed through
unchanged (assumed already a tensor). Fails with an input-validation error on
any other shape." -/
def convert_dielectric_to_tensor : DielectricInput → Except CorrErr Mat3
  | .scalar d => .ok (fun i j => if i = j then d else 0)
  | .vec v =>
    if v.length = 3 then .ok (fun i j => if i = j then v.getD i.val 0 else 0)
    else .error (.valueError "Dielectric constant must be a scalar, a 3x1 vector or a 3x3 matrix")
  | .mat m =>
    if m.length = 3 ∧ ∀ row ∈ m, row.length = 3 then
      .ok (fun i j => (m.getD i.val []).getD j.val 0)
    else .error (.valueError "Dielectric constant must be a scalar, a 3x1 vector or a 3x3 matrix")

/-- pymatgen `Outcar`: only the `electrostatic_potential` attribute is read by
the code under verification (`None` when core potentials are absent). -/
structure Outcar where
  electrostatic_potential : Option (List ℚ)
deriving DecidableEq, Repr

/-- pymatgen `Locpot` / planar-averaged potential data: an opaque pass-through
payload for the external FNV engine (one 1-D profile per axis). -/
structure Locpot where
  planar_avg : Fin 3 → List ℚ
deriving DecidableEq

/-- The `DefectEntry` fields read by the two correction entry points: charge
state, the `calculation_metadata` entries consulted as fallbacks (absent keys
modelled as `none`), the supercells, and the relaxed defect coordinates
(`_get_defect_supercell_bulk_site_coords`, possibly `None`). -/
structure DefectEntry where
  charge_state : ℤ
  metadata_dielectric : Option DielectricInput
  metadata_defect_site_potentials : Option (List ℚ)
  metadata_bulk_site_potentials : Option (List ℚ)
  metadata_defect_locpot : Option Locpot
  metadata_bulk_locpot : Option Locpot
  defect_supercell : PmgStructure
  bulk_supercell : PmgStructure
  defect_supercell_bulk_site_coords : Option Vec3

/-- `_get_and_check_metadata`-style resolution: explicit argument first, then
the metadata entry, else the `ValueError` of
`_check_if_None_and_raise_error_if_so` naming `display_name`
(src/doped/corrections.py lines 93-104). -/
def getArgOrMetadata (arg metadataValue : Option α) (display_name : String) :
    Except CorrErr α :=
  match arg with
  | some v => .ok v
  | none =>
    match metadataValue with
    | some v => .ok v
    | none => .error (.missingInput display_name)

/-- Site-potential resolution of `get_kumagai_correction`
(src/doped/corrections.py lines 501-519): a supplied OUTCAR must carry
`electrostatic_potential` (else `_raise_incomplete_outcar_error` naming
`dir_type`), and its values are negated; otherwise fall back to the
metadata entry, else raise the missing-input `ValueError`. -/
def getSitePotentials (outcar : Option Outcar) (metadataValue : Option (List ℚ))
    (dir_type display_name : String) : Except CorrErr (List ℚ) :=
  match outcar with
  | some oc =>
    match oc.electrostatic_potential with
    | none => .error (.incompleteOutcar dir_type)
    | some ep => .ok (ep.map (fun x => -x))
  | none =>
    match metadataValue with
    | some v => .ok v
    | none => .error (.missingInput display_name)

/-- The lattice compatibility check of `get_kumagai_correction`
(src/doped/corrections.py lines 532-542): equal lattices (pymatgen
`__eq__`) pass through; lattices element-wise within
`np.allclose(..., atol=1e-2)` are rescaled to the defect volume
(`scale_lattice`); anything else raises the `ValueError`. -/
def resolveBulkSupercell (env : ExternalEnv) (bulk defect : PmgStructure) :
    Except CorrErr PmgStructure :=
  if latticeEq bulk.latticeMatrix defect.latticeMatrix then .ok bulk
  else if npAllClose (1/100000) (1/100) bulk.latticeMatrix defect.latticeMatrix then
    .ok { bulk with
          latticeMatrix := env.scaleLattice bulk.latticeMatrix
            (latticeVolume defect.latticeMatrix) }
  else
    .error (.valueError "Bulk and defect supercells have different lattices, and so the eFNV (Kumagai) correction cannot be computed!")

/-- pymatgen `CorrectionResult` as built at src/doped/corrections.py lines
563-566: the scalar energy plus the metadata entry
`pydefect_ExtendedFnvCorrection`. -/
structure CorrectionResult where
  correction_energy : ℚ
  metadata_efnv : ExtendedFnvCorrection
deriving DecidableEq

/-- The Kumagai site-potential figure (external pydefect
`SitePotentialMplPlotter` rendering, modelled as the data it is built from). -/
structure KumagaiFig where
  efnv : ExtendedFnvCorrection
deriving DecidableEq

/-- Return shape of `get_kumagai_correction`: the bare result, or the
`(result, figure)` pair when plotting/saving was requested. -/
inductive KumagaiReturn where
  | single (r : CorrectionResult)
  | withFig (r : CorrectionResult) (fig : KumagaiFig)
deriving DecidableEq

/-- The `CorrectionResult` carried by either return shape. -/
def KumagaiReturn.result : KumagaiReturn → CorrectionResult
  | .single r => r
  | .withFig r _ => r

/-- Tail of `get_kumagai_correction` after input resolution
(src/doped/corrections.py lines 551-629): run `doped_make_efnv_correction`
with the pydefect accuracy default and the fixed unit conversion, wrap the
result, and branch on `plot` / `filename` for the return shape. -/
def kumagaiTail (env : ExternalEnv) (defect_entry : DefectEntry)
    (defect_region_radius : Option ℚ) (excluded_indices : Option (List ℕ))
    (plot : Bool) (filename : Option String) (dielectric_tensor : Mat3)
    (defect_calc_results bulk_calc_results : CalcResults) :
    Except CorrErr KumagaiReturn := do
  let efnv ← doped_make_efnv_correction env (defect_entry.charge_state : ℚ)
    defect_calc_results bulk_calc_results dielectric_tensor defect_region_radius
    defect_entry.defect_supercell_bulk_site_coords
    env.ewaldAccuracyDefault unitConversionDefault excluded_indices
  let kumagai_correction_result : CorrectionResult :=
    ⟨efnv.correction_energy, efnv⟩
  if !plot && filename.isNone then
    pure (.single kumagai_correction_result)
  else
    pure (.withFig kumagai_correction_result ⟨efnv⟩)

/-- Shallow embedding of `get_kumagai_correction`
(src/doped/corrections.py lines 317-629).  `verbose` printing and the
matplotlib styling are side effects without influence on the returned value
and are omitted; string paths for OUTCARs (file I/O) are outside the model, so
OUTCAR arguments are the parsed objects. -/
def get_kumagai_correction (env : ExternalEnv) (defect_entry : DefectEntry)
    (dielectric : Option DielectricInput) (defect_region_radius : Option ℚ)
    (excluded_indices : Option (List ℕ)) (defect_outcar bulk_outcar : Option Outcar)
    (plot : Bool) (filename : Option String) : Except CorrErr KumagaiReturn := do
  let dielInput ← getArgOrMetadata dielectric defect_entry.metadata_dielectric
    "Dielectric constant"
  let dielectric_tensor ← convert_dielectric_to_tensor dielInput
  let defect_site_potentials ← getSitePotentials defect_outcar
    defect_entry.metadata_defect_site_potentials "defect"
    "Defect OUTCAR (for atomic site potentials)"
  let bulk_site_potentials ← getSitePotentials bulk_outcar
    defect_entry.metadata_bulk_site_potentials "bulk"
    "Bulk OUTCAR (for atomic site potentials)"
  let defect_calc_results : CalcResults :=
    ⟨defect_entry.defect_supercell, defect_site_potentials⟩
  let bulk_supercell ← resolveBulkSupercell env defect_entry.bulk_supercell
    defect_entry.defect_supercell
  let bulk_calc_results : CalcResults := ⟨bulk_supercell, bulk_site_potentials⟩
  kumagaiTail env defect_entry defect_region_radius excluded_indices plot filename
    dielectric_tensor defect_calc_results bulk_calc_results

/-- The `pot_plot_data` payload of one axis of FNV plot metadata
(the series read by `plot_FNV`, src/doped/corrections.py lines 274-279). -/
structure PotPlotData where
  x : List ℚ
  Vr : List ℚ
  dft_diff : List ℚ
  short_range : List ℚ
  check : ℕ × ℕ
  shift : ℚ
deriving DecidableEq

/-- One axis entry of `metadata["plot_data"]`; an empty/absent
`pot_plot_data` dictionary (falsy in Python) is modelled as `none`. -/
structure FnvPlotAxisData where
  pot_plot_data : Option PotPlotData
deriving DecidableEq

/-- The matplotlib axis produced by `plot_FNV`, modelled as the pure data
drawn onto it. -/
structure FnvAx where
  x : List ℚ
  v_R : List ℚ
  dft_diff : List ℚ
  short_range : List ℚ
  shift : ℚ
deriving DecidableEq

/-- Shallow embedding of `plot_FNV` (src/doped/corrections.py lines 249-314):
the guard raising `ValueError` on empty `pot_plot_data`, then the assembly of
the plotted series (matplotlib rendering and styling are side effects on the
returned axis object and are modelled as the data they draw). -/
def plot_FNV (plot_data : FnvPlotAxisData) : Except CorrErr FnvAx :=
  match plot_data.pot_plot_data with
  | none =>
    .error (.valueError "Input plot_data has no pot_plot_data entry. Cannot plot FNV potential alignment before running correction!")
  | some pd => .ok ⟨pd.x, pd.Vr, pd.dft_diff, pd.short_range, pd.shift⟩

/-- Modelled from the spec: the external FNV engine
(`pymatgen.analysis.defects.corrections.freysoldt.get_freysoldt_correction`,
not repository code).  Its numeric behaviour is opaque except for the spec's
§4.4 edge case, carried as proof fields: "q = 0 ⇒ correction is 0, no plotting
content (`pot_plot_data` empty)". -/
structure FnvEngine where
  energy : ℤ → Mat3 → Locpot → Locpot → Option Vec3 → ℚ
  plotData : ℤ → Mat3 → Locpot → Locpot → Option Vec3 → Fin 3 → FnvPlotAxisData
  energy_zero : ∀ diel dl bl fc, energy 0 diel dl bl fc = 0
  plotData_empty_zero : ∀ diel dl bl fc a, (plotData 0 diel dl bl fc a).pot_plot_data = none

/-- The FNV `CorrectionResult`: scalar energy plus the per-axis
`metadata["plot_data"]`. -/
structure FnvCorrectionResult where
  correction_energy : ℚ
  plot_data : Fin 3 → FnvPlotAxisData
deriving DecidableEq

/-- The FNV figure: the three-panel figure (axis `None`) or the single-axis
object returned when `axis` was given. -/
inductive FnvFig where
  | threePanel (a0 a1 a2 : FnvAx)
  | singleAxis (a : FnvAx)
deriving DecidableEq

/-- Return shape of `get_freysoldt_correction`. -/
inductive FreysoldtReturn where
  | single (r : FnvCorrectionResult)
  | withFig (r : FnvCorrectionResult) (fig : FnvFig)
deriving DecidableEq

/-- The `CorrectionResult` carried by either return shape. -/
def FreysoldtReturn.result : FreysoldtReturn → FnvCorrectionResult
  | .single r => r
  | .withFig r _ => r

/-- Shallow embedding of `get_freysoldt_correction`
(src/doped/corrections.py lines 122-246): metadata fallbacks with
missing-input errors, dielectric normalization, the external FNV engine call,
and the `plot`/`filename`/`axis` return-shape branching, in which `plot_FNV`
is invoked per axis (all three when `axis is None`). -/
def get_freysoldt_correction (eng : FnvEngine) (defect_entry : DefectEntry)
    (dielectric : Option DielectricInput) (defect_locpot bulk_locpot : Option Locpot)
    (plot : Bool) (filename : Option String) (axis : Option (Fin 3)) :
    Except CorrErr FreysoldtReturn := do
  let dielInput ← getArgOrMetadata dielectric defect_entry.metadata_dielectric
    "Dielectric constant"
  let dielectric_tensor ← convert_dielectric_to_tensor dielInput
  let dl ← getArgOrMetadata defect_locpot defect_entry.metadata_defect_locpot
    "Defect LOCPOT"
  let bl ← getArgOrMetadata bulk_locpot defect_entry.metadata_bulk_locpot
    "Bulk LOCPOT"
  let fc := defect_entry.defect_supercell_bulk_site_coords
  let fnv_correction : FnvCorrectionResult :=
    ⟨eng.energy defect_entry.charge_state dielectric_tensor dl bl fc,
     eng.plotData defect_entry.charge_state dielectric_tensor dl bl fc⟩
  if !plot && filename.isNone then
    pure (.single fnv_correction)
  else
    match axis with
    | none => do
      let a0 ← plot_FNV (fnv_correction.plot_data 0)
      let a1 ← plot_FNV (fnv_correction.plot_data 1)
      let a2 ← plot_FNV (fnv_correction.plot_data 2)
      pure (.withFig fnv_correction (.threePanel a0 a1 a2))
    | some a => do
      let ax ← plot_FNV (fnv_correction.plot_data a)
      pure (.withFig fnv_correction (.singleAxis ax))

/-! ## Helper lemmas -/

/-- The effective defect-region radius used by a run. -/
def effectiveRadius (env : ExternalEnv) (cr : CalcResults) (drr : Option ℚ) : ℚ :=
  drr.getD (env.calcMaxSphereRadius cr.struct.latticeMatrix)

/-- The effective defect-centre coordinate used by a run. -/
def effectiveCoords (env : ExternalEnv) (cr pr : CalcResults) (coords : Option Vec3) : Vec3 :=
  coords.getD (env.defectCenterCoord cr.struct pr.struct)

/-- The site/relative-coordinate pairs a run builds (before `pc_potential`
assignment): the atom mapping, filtered by the exclusion list, traversed by
`sitePair`. -/
def buildPairs (env : ExternalEnv) (cr pr : CalcResults) (coords : Option Vec3)
    (excl : Option (List ℕ)) : Except CorrErr (List (PotentialSite × Vec3)) :=
  exceptMapList (sitePair env cr pr cr.struct.latticeMatrix (effectiveCoords env cr pr coords))
    ((env.atomMapping cr.struct pr.struct).filter
      (fun dp => !((excl.getD []).contains dp.1)))

/-- The raw (pre-conversion) point-charge term of a run:
`-ewald.lattice_energy * charge**2 if charge else 0.0`. -/
def rawPointCharge (env : ExternalEnv) (cr : CalcResults) (diel : Mat3)
    (acc q : ℚ) : ℚ :=
  if q = 0 then 0
  else -(env.ewaldLatticeEnergy cr.struct.latticeMatrix diel acc) * q ^ 2

/-- Characterization of a successful `doped_make_efnv_correction` run. -/
theorem doped_make_efnv_correction_ok_iff (env : ExternalEnv) (q : ℚ)
    (cr pr : CalcResults) (diel : Mat3) (drr : Option ℚ) (coords : Option Vec3)
    (acc u : ℚ) (excl : Option (List ℕ)) (c : ExtendedFnvCorrection) :
    doped_make_efnv_correction env q cr pr diel drr coords acc u excl = .ok c ↔
      latticeEq cr.struct.latticeMatrix pr.struct.latticeMatrix ∧
      ∃ prs, buildPairs env cr pr coords excl = .ok prs ∧
        c = ⟨q, rawPointCharge env cr diel acc q * u,
             effectiveRadius env cr drr,
             prs.map (assignPcPotential env cr.struct.latticeMatrix diel acc q u
               (effectiveRadius env cr drr)),
             effectiveCoords env cr pr coords⟩ := by
  unfold doped_make_efnv_correction buildPairs rawPointCharge effectiveRadius effectiveCoords
  split
  · rename_i h
    cases hm : exceptMapList
        (sitePair env cr pr cr.struct.latticeMatrix
          (coords.getD (env.defectCenterCoord cr.struct pr.struct)))
        ((env.atomMapping cr.struct pr.struct).filter
          (fun dp => !((excl.getD []).contains dp.1))) with
    | error e =>
      simp only [hm, h, true_and]
      constructor
      · intro hc
        exact absurd hc (by simp [Bind.bind, Except.bind])
      · rintro ⟨prs, hprs, -⟩
        exact absurd hprs (by simp)
    | ok prs =>
      simp only [hm, h, true_and]
      constructor
      · intro hc
        refine ⟨prs, rfl, ?_⟩
        simpa [Bind.bind, Except.bind, pure, Except.pure] using hc.symm
      · rintro ⟨prs2, hprs2, hc⟩
        obtain rfl : prs = prs2 := by simpa using hprs2
        simp [Bind.bind, Except.bind, pure, Except.pure, hc]
  · rename_i h
    simp [h]

/-- Bind on `Except` succeeds exactly when both stages succeed. -/
theorem except_bind_ok (x : Except CorrErr α) (f : α → Except CorrErr β) (r : β) :
    (x >>= f) = .ok r ↔ ∃ a, x = .ok a ∧ f a = .ok r := by
  cases x <;> simp [Bind.bind, Except.bind]

/-- Characterization of a successful `kumagaiTail` run. -/
theorem kumagaiTail_ok_iff (env : ExternalEnv) (entry : DefectEntry)
    (drr : Option ℚ) (excl : Option (List ℕ)) (plot : Bool) (fn : Option String)
    (T : Mat3) (dcr bcr : CalcResults) (ret : KumagaiReturn) :
    kumagaiTail env entry drr excl plot fn T dcr bcr = .ok ret ↔
      ∃ efnv, doped_make_efnv_correction env (entry.charge_state : ℚ) dcr bcr T drr
          entry.defect_supercell_bulk_site_coords env.ewaldAccuracyDefault
          unitConversionDefault excl = .ok efnv ∧
        ret = (if !plot && fn.isNone then
                 KumagaiReturn.single ⟨efnv.correction_energy, efnv⟩
               else
                 KumagaiReturn.withFig ⟨efnv.correction_energy, efnv⟩ ⟨efnv⟩) := by
  unfold kumagaiTail
  simp only [except_bind_ok]
  refine exists_congr fun efnv => and_congr_right fun _ => ?_
  split
  · simp [pure, Except.pure, eq_comm]
  · simp [pure, Except.pure, eq_comm]

/-- Characterization of a successful `get_kumagai_correction` run. -/
theorem get_kumagai_correction_ok_iff (env : ExternalEnv) (entry : DefectEntry)
    (diel : Option DielectricInput) (drr : Option ℚ) (excl : Option (List ℕ))
    (doc boc : Option Outcar) (plot : Bool) (fn : Option String) (ret : KumagaiReturn) :
    get_kumagai_correction env entry diel drr excl doc boc plot fn = .ok ret ↔
      ∃ dI T dps bps bulkS,
        getArgOrMetadata diel entry.metadata_dielectric "Dielectric constant" = .ok dI ∧
        convert_dielectric_to_tensor dI = .ok T ∧
        getSitePotentials doc entry.metadata_defect_site_potentials "defect"
          "Defect OUTCAR (for atomic site potentials)" = .ok dps ∧
        getSitePotentials boc entry.metadata_bulk_site_potentials "bulk"
          "Bulk OUTCAR (for atomic site potentials)" = .ok bps ∧
        resolveBulkSupercell env entry.bulk_supercell entry.defect_supercell = .ok bulkS ∧
        kumagaiTail env entry drr excl plot fn T ⟨entry.defect_supercell, dps⟩
          ⟨bulkS, bps⟩ = .ok ret := by
  unfold get_kumagai_correction
  simp only [except_bind_ok]
  constructor
  · rintro ⟨dI, h1, T, h2, dps, h3, bps, h4, bulkS, h5, h6⟩
    exact ⟨dI, T, dps, bps, bulkS, h1, h2, h3, h4, h5, h6⟩
  · rintro ⟨dI, T, dps, bps, bulkS, h1, h2, h3, h4, h5, h6⟩
    exact ⟨dI, h1, T, h2, dps, h3, bps, h4, bulkS, h5, h6⟩

/-- `plot_FNV` fails with the guard's `ValueError` exactly on empty
`pot_plot_data`. -/
theorem plot_FNV_error_of_none (pd : FnvPlotAxisData)
    (h : pd.pot_plot_data = none) :
    plot_FNV pd = .error (.valueError "Input plot_data has no pot_plot_data entry. Cannot plot FNV potential alignment before running correction!") := by
  cases pd with
  | mk p => cases p <;> simp_all [plot_FNV]

/-- Characterization of a successful `get_freysoldt_correction` run. -/
theorem get_freysoldt_correction_ok_iff (eng : FnvEngine) (entry : DefectEntry)
    (diel : Option DielectricInput) (dlc blc : Option Locpot) (plot : Bool)
    (fn : Option String) (axis : Option (Fin 3)) (ret : FreysoldtReturn) :
    get_freysoldt_correction eng entry diel dlc blc plot fn axis = .ok ret ↔
      ∃ dI T dl bl,
        getArgOrMetadata diel entry.metadata_dielectric "Dielectric constant" = .ok dI ∧
        convert_dielectric_to_tensor dI = .ok T ∧
        getArgOrMetadata dlc entry.metadata_defect_locpot "Defect LOCPOT" = .ok dl ∧
        getArgOrMetadata blc entry.metadata_bulk_locpot "Bulk LOCPOT" = .ok bl ∧
        (let R : FnvCorrectionResult :=
          ⟨eng.energy entry.charge_state T dl bl entry.defect_supercell_bulk_site_coords,
           eng.plotData entry.charge_state T dl bl entry.defect_supercell_bulk_site_coords⟩
         if !plot && fn.isNone then ret = .single R
         else
           match axis with
           | none => ∃ a0 a1 a2, plot_FNV (R.plot_data 0) = .ok a0 ∧
               plot_FNV (R.plot_data 1) = .ok a1 ∧ plot_FNV (R.plot_data 2) = .ok a2 ∧
               ret = .withFig R (.threePanel a0 a1 a2)
           | some a => ∃ ax, plot_FNV (R.plot_data a) = .ok ax ∧
               ret = .withFig R (.singleAxis ax)) := by
  unfold get_freysoldt_correction
  simp only [except_bind_ok]
  constructor
  · rintro ⟨dI, h1, T, h2, dl, h3, bl, h4, h5⟩
    refine ⟨dI, T, dl, bl, h1, h2, h3, h4, ?_⟩
    dsimp only at h5 ⊢
    split at h5
    · rename_i hb
      simp only [hb, if_true]
      simp only [pure, Except.pure, Except.ok.injEq] at h5
      exact h5.symm
    · rename_i hb
      rw [Bool.not_eq_true] at hb
      simp only [hb, Bool.false_eq_true, if_false] at h5 ⊢
      cases axis with
      | none =>
        simp only [except_bind_ok] at h5
        obtain ⟨a0, g0, a1, g1, a2, g2, hret⟩ := h5
        simp only [pure, Except.pure, Except.ok.injEq] at hret
        exact ⟨a0, a1, a2, g0, g1, g2, hret.symm⟩
      | some a =>
        simp only [except_bind_ok] at h5
        obtain ⟨ax, g, hret⟩ := h5
        simp only [pure, Except.pure, Except.ok.injEq] at hret
        exact ⟨ax, g, hret.symm⟩
  · rintro ⟨dI, T, dl, bl, h1, h2, h3, h4, h5⟩
    refine ⟨dI, h1, T, h2, dl, h3, bl, h4, ?_⟩
    dsimp only at h5 ⊢
    split at h5
    · rename_i hb
      simp only [hb, if_true]
      simp [pure, Except.pure, h5]
    · rename_i hb
      rw [Bool.not_eq_true] at hb
      simp only [hb, Bool.false_eq_true, if_false] at h5 ⊢
      cases axis with
      | none =>
        obtain ⟨a0, a1, a2, g0, g1, g2, hret⟩ := h5
        simp only [except_bind_ok]
        exact ⟨a0, g0, a1, g1, a2, g2, by simp [pure, Except.pure, hret]⟩
      | some a =>
        obtain ⟨ax, g, hret⟩ := h5
        simp only [except_bind_ok]
        exact ⟨ax, g, by simp [pure, Except.pure, hret]⟩

/-- Successful `exceptMapList` over a cons. -/
theorem exceptMapList_cons_ok (f : α → Except CorrErr β) (a : α) (as : List α)
    (bs : List β) :
    exceptMapList f (a :: as) = .ok bs ↔
      ∃ b bs2, f a = .ok b ∧ exceptMapList f as = .ok bs2 ∧ bs = b :: bs2 := by
  cases hfa : f a with
  | error e => simp [exceptMapList, hfa, Bind.bind, Except.bind]
  | ok b =>
    cases hrest : exceptMapList f as with
    | error e => simp [exceptMapList, hfa, hrest, Bind.bind, Except.bind]
    | ok bs2 =>
      simp [exceptMapList, hfa, hrest, Bind.bind, Except.bind, pure, Except.pure,
        eq_comm]

/-- Successful `exceptMapList` over an append splits into successful halves. -/
theorem exceptMapList_append_ok (f : α → Except CorrErr β) (l1 l2 : List α)
    (ys : List β) :
    exceptMapList f (l1 ++ l2) = .ok ys ↔
      ∃ y1 y2, exceptMapList f l1 = .ok y1 ∧ exceptMapList f l2 = .ok y2 ∧
        ys = y1 ++ y2 := by
  induction l1 generalizing ys with
  | nil => simp [exceptMapList]
  | cons a t ih =>
    rw [List.cons_append, exceptMapList_cons_ok]
    constructor
    · rintro ⟨b, bs2, hfa, htail, rfl⟩
      obtain ⟨y1, y2, h1, h2, rfl⟩ := (ih bs2).mp htail
      exact ⟨b :: y1, y2, (exceptMapList_cons_ok f a t (b :: y1)).mpr
        ⟨b, y1, hfa, h1, rfl⟩, h2, rfl⟩
    · rintro ⟨y1, y2, h1, h2, rfl⟩
      obtain ⟨b, bs2, hfa, htail, rfl⟩ := (exceptMapList_cons_ok f a t y1).mp h1
      exact ⟨b, bs2 ++ y2, hfa, (ih (bs2 ++ y2)).mpr ⟨bs2, y2, htail, h2, rfl⟩, rfl⟩

/-- Removing one value from a list changes the mean exactly when the value
differs from the mean of the remaining entries. -/
theorem listMean_append_cons_eq_iff (A B : List ℚ) (v : ℚ) (hne : A ++ B ≠ []) :
    (listMean (A ++ v :: B) = listMean (A ++ B)) ↔ v = listMean (A ++ B) := by
  have hsum : (A ++ v :: B).sum = v + (A ++ B).sum := by
    simp [List.sum_append]
    ring
  have hlen : (A ++ v :: B).length = (A ++ B).length + 1 := by
    simp only [List.length_append, List.length_cons]
    omega
  set S := (A ++ B).sum with hS
  set n := (A ++ B).length with hn
  have hn0 : (n : ℚ) ≠ 0 := by
    have : n ≠ 0 := by
      intro h0
      exact hne (List.length_eq_zero.mp (hn ▸ h0))
    exact_mod_cast this
  have hn1 : ((n : ℚ) + 1) ≠ 0 := by positivity
  unfold listMean
  rw [hsum, hlen]
  push_cast
  rw [div_eq_div_iff hn1 hn0, eq_div_iff hn0]
  constructor
  · intro h2
    linear_combination h2
  · intro h2
    linear_combination h2

/-- `sampleValues` distributes over append. -/
theorem sampleValues_append (l1 l2 : List PotentialSite) :
    sampleValues (l1 ++ l2) = sampleValues l1 ++ sampleValues l2 := by
  simp [sampleValues, List.filterMap_append]

/-- Characterization of a successful `sitePair` evaluation. -/
theorem sitePair_ok_iff (env : ExternalEnv) (cr pr : CalcResults) (lattice : Mat3)
    (dc : Vec3) (dp : ℕ × ℕ) (y : PotentialSite × Vec3) :
    sitePair env cr pr lattice dc dp = .ok y ↔
      ∃ dsite dpot ppot, getSiteAt cr.struct dp.1 = .ok dsite ∧
        getPotAt cr.potentials dp.1 = .ok dpot ∧
        getPotAt pr.potentials dp.2 = .ok ppot ∧
        y = (⟨dsite.specie, env.getDistance lattice dc dsite.frac_coords,
              dpot - ppot, none⟩,
             fun k => dsite.frac_coords k - dc k) := by
  unfold sitePair
  simp only [except_bind_ok]
  constructor
  · rintro ⟨dsite, h1, dpot, h2, ppot, h3, hy⟩
    simp only [pure, Except.pure, Except.ok.injEq] at hy
    exact ⟨dsite, dpot, ppot, h1, h2, h3, hy.symm⟩
  · rintro ⟨dsite, dpot, ppot, h1, h2, h3, hy⟩
    exact ⟨dsite, h1, dpot, h2, ppot, h3, by simp [pure, Except.pure, hy]⟩

/-- Every site built by `sitePair` starts with `pc_potential = None`. -/
theorem sitePair_pc_none (env : ExternalEnv) (cr pr : CalcResults) (lattice : Mat3)
    (dc : Vec3) (dp : ℕ × ℕ) (y : PotentialSite × Vec3)
    (h : sitePair env cr pr lattice dc dp = .ok y) : y.1.pc_potential = none := by
  obtain ⟨dsite, dpot, ppot, -, -, -, hy⟩ := (sitePair_ok_iff env cr pr lattice dc dp y).mp h
  rw [hy]

/-- Every element of a successful `exceptMapList` comes from some input. -/
theorem exceptMapList_mem_ok (f : α → Except CorrErr β) (l : List α) (ys : List β)
    (h : exceptMapList f l = .ok ys) : ∀ y ∈ ys, ∃ a ∈ l, f a = .ok y := by
  induction l generalizing ys with
  | nil =>
    simp only [exceptMapList, Except.ok.injEq] at h
    subst h
    simp
  | cons a t ih =>
    obtain ⟨b, bs2, hfa, htail, rfl⟩ := (exceptMapList_cons_ok f a t ys).mp h
    intro y hy
    rcases List.mem_cons.mp hy with rfl | hy2
    · exact ⟨a, List.mem_cons_self a t, hfa⟩
    · obtain ⟨a2, ha2, hfa2⟩ := ih bs2 htail y hy2
      exact ⟨a2, List.mem_cons_of_mem a ha2, hfa2⟩

/-- `assignPcPotential` keeps the species, distance and potential of a site. -/
theorem assignPcPotential_preserves (env : ExternalEnv) (lattice diel : Mat3)
    (acc q u r : ℚ) (sr : PotentialSite × Vec3) :
    (assignPcPotential env lattice diel acc q u r sr).distance = sr.1.distance ∧
    (assignPcPotential env lattice diel acc q u r sr).potential = sr.1.potential ∧
    (assignPcPotential env lattice diel acc q u r sr).specie = sr.1.specie := by
  unfold assignPcPotential
  split <;> simp

/-- `assignPcPotential` on a sampled site (distance beyond the radius). -/
theorem assignPcPotential_far (env : ExternalEnv) (lattice diel : Mat3)
    (acc q u r : ℚ) (sr : PotentialSite × Vec3) (h : sr.1.distance > r) :
    (assignPcPotential env lattice diel acc q u r sr).pc_potential =
      (if q = 0 then some 0
       else some (env.ewaldAtomicSitePotential lattice diel acc sr.2 * q * u)) := by
  unfold assignPcPotential
  rw [if_pos h]

/-- `assignPcPotential` leaves a near site untouched. -/
theorem assignPcPotential_near (env : ExternalEnv) (lattice diel : Mat3)
    (acc q u r : ℚ) (sr : PotentialSite × Vec3) (h : ¬ sr.1.distance > r) :
    assignPcPotential env lattice diel acc q u r sr = sr.1 := by
  unfold assignPcPotential
  rw [if_neg h]

/-! ## Claim theorems -/

/-- **C1.** For every invocation of `get_kumagai_correction` with nonzero charge
state, the `correction_energy` of the returned `CorrectionResult` equals the
Ewald point-charge term alone — the `point_charge_correction` field of the
constructed `ExtendedFnvCorrection` — with the mean site potential-difference
offset (`ave_pot_diff`) stored only as diagnostic metadata and not added to the
returned correction energy. -/
theorem claim_C1_kumagai_energy_is_point_charge_term (env : ExternalEnv)
    (entry : DefectEntry) (diel : Option DielectricInput) (drr : Option ℚ)
    (excl : Option (List ℕ)) (doc boc : Option Outcar) (plot : Bool)
    (fn : Option String) (ret : KumagaiReturn)
    (_hq : entry.charge_state ≠ 0)
    (hrun : get_kumagai_correction env entry diel drr excl doc boc plot fn = .ok ret) :
    ret.result.correction_energy = ret.result.metadata_efnv.point_charge_correction ∧
    ret.result.correction_energy =
      ExtendedFnvCorrection.correction_energy ret.result.metadata_efnv := by
  obtain ⟨dI, T, dps, bps, bulkS, -, -, -, -, -, h6⟩ :=
    (get_kumagai_correction_ok_iff env entry diel drr excl doc boc plot fn ret).mp hrun
  obtain ⟨efnv, -, hret⟩ := (kumagaiTail_ok_iff env entry drr excl plot fn T
    ⟨entry.defect_supercell, dps⟩ ⟨bulkS, bps⟩ ret).mp h6
  subst hret
  split <;> exact ⟨rfl, rfl⟩

/-- **C2.** For every nonzero charge q, the eFNV point-charge correction energy
computed by `doped_make_efnv_correction` equals −(Ewald lattice energy) × q²
multiplied by the fixed unit-conversion constant 180.95128169876497; for q = 0
the point-charge term is exactly 0.0. -/
theorem claim_C2_point_charge_formula (env : ExternalEnv) (q : ℚ)
    (cr pr : CalcResults) (diel : Mat3) (drr : Option ℚ) (coords : Option Vec3)
    (acc : ℚ) (excl : Option (List ℕ)) (c : ExtendedFnvCorrection)
    (hrun : doped_make_efnv_correction env q cr pr diel drr coords acc
      unitConversionDefault excl = .ok c) :
    (q ≠ 0 → c.point_charge_correction =
      -(env.ewaldLatticeEnergy cr.struct.latticeMatrix diel acc) * q ^ 2
        * (180.95128169876497 : ℚ)) ∧
    (q = 0 → c.point_charge_correction = 0) := by
  obtain ⟨-, prs, -, rfl⟩ := (doped_make_efnv_correction_ok_iff env q cr pr diel
    drr coords acc unitConversionDefault excl c).mp hrun
  constructor
  · intro hq
    simp [rawPointCharge, hq, unitConversionDefault]
  · intro hq
    simp [rawPointCharge, hq]

/-- **C7.** In `doped_make_efnv_correction` with nonzero charge q, exactly those
non-excluded sites whose distance from the defect centre exceeds
`defect_region_radius` are assigned a model point-charge potential (the Ewald
atomic-site potential at their relative coordinate, times q, times the
unit-conversion constant), while sites at or inside the radius keep no model
potential (`None`); when `defect_region_radius` is not supplied it defaults to
`calc_max_sphere_radius` — per the spec, the maximum inscribed (Wigner–Seitz)
sphere radius of the supercell lattice. -/
theorem claim_C7_site_model_potentials (env : ExternalEnv) (q : ℚ)
    (cr pr : CalcResults) (diel : Mat3) (drr : Option ℚ) (coords : Option Vec3)
    (acc u : ℚ) (excl : Option (List ℕ)) (c : ExtendedFnvCorrection)
    (hq : q ≠ 0)
    (hrun : doped_make_efnv_correction env q cr pr diel drr coords acc u excl = .ok c) :
    c.defect_region_radius = drr.getD (env.calcMaxSphereRadius cr.struct.latticeMatrix) ∧
    (∀ s ∈ c.sites, s.pc_potential.isSome = true ↔ s.distance > c.defect_region_radius) ∧
    ∃ prs, buildPairs env cr pr coords excl = .ok prs ∧
      c.sites = prs.map (assignPcPotential env cr.struct.latticeMatrix diel acc q u
        c.defect_region_radius) ∧
      (∀ sr ∈ prs, sr.1.distance > c.defect_region_radius →
        (assignPcPotential env cr.struct.latticeMatrix diel acc q u
          c.defect_region_radius sr).pc_potential =
          some (env.ewaldAtomicSitePotential cr.struct.latticeMatrix diel acc sr.2
            * q * u)) ∧
      (∀ sr ∈ prs, ¬ sr.1.distance > c.defect_region_radius →
        (assignPcPotential env cr.struct.latticeMatrix diel acc q u
          c.defect_region_radius sr).pc_potential = none) := by
  obtain ⟨-, prs, hprs, rfl⟩ := (doped_make_efnv_correction_ok_iff env q cr pr diel
    drr coords acc u excl c).mp hrun
  dsimp only
  refine ⟨rfl, ?_, prs, hprs, rfl, ?_, ?_⟩
  · intro s hs
    obtain ⟨sr, hsr, rfl⟩ := List.mem_map.mp hs
    have hnone : sr.1.pc_potential = none := by
      obtain ⟨dp, -, hdp⟩ := exceptMapList_mem_ok _ _ _ hprs sr hsr
      exact sitePair_pc_none env cr pr _ _ dp sr hdp
    have hdist := (assignPcPotential_preserves env cr.struct.latticeMatrix diel acc q u
      (effectiveRadius env cr drr) sr).1
    rw [hdist]
    by_cases hfar : sr.1.distance > effectiveRadius env cr drr
    · rw [assignPcPotential_far env cr.struct.latticeMatrix diel acc q u _ sr hfar,
        if_neg hq]
      simp [hfar]
    · rw [assignPcPotential_near env cr.struct.latticeMatrix diel acc q u _ sr hfar]
      simp [hnone, hfar]
  · intro sr hsr hfar
    rw [assignPcPotential_far env cr.struct.latticeMatrix diel acc q u _ sr hfar,
      if_neg hq]
  · intro sr hsr hfar
    rw [assignPcPotential_near env cr.struct.latticeMatrix diel acc q u _ sr hfar]
    obtain ⟨dp, -, hdp⟩ := exceptMapList_mem_ok _ _ _ hprs sr hsr
    exact sitePair_pc_none env cr pr _ _ dp sr hdp

/-- `ok` propagates through bind. -/
theorem ok_bind (a : α) (f : α → Except CorrErr β) :
    (Except.ok a : Except CorrErr α) >>= f = f a := rfl

/-- `error` propagates through bind. -/
theorem error_bind (e : CorrErr) (f : α → Except CorrErr β) :
    (Except.error e : Except CorrErr α) >>= f = .error e := rfl

/-- Scalar and 3-vector dielectric inputs normalize to the same tensor. -/
theorem convert_scalar_eq_vec (d : ℚ) :
    convert_dielectric_to_tensor (.scalar d) =
      convert_dielectric_to_tensor (.vec [d, d, d]) := by
  simp only [convert_dielectric_to_tensor]
  rw [if_pos (by simp)]
  simp only [Except.ok.injEq]
  funext i j
  by_cases h : i = j
  · subst h
    fin_cases i <;> simp [List.getD]
  · simp [h]

/-- Scalar and diagonal-matrix dielectric inputs normalize to the same tensor. -/
theorem convert_scalar_eq_mat (d : ℚ) :
    convert_dielectric_to_tensor (.scalar d) =
      convert_dielectric_to_tensor (.mat [[d, 0, 0], [0, d, 0], [0, 0, d]]) := by
  simp only [convert_dielectric_to_tensor]
  rw [if_pos (by simp)]
  simp only [Except.ok.injEq]
  funext i j
  fin_cases i <;> fin_cases j <;> simp [List.getD]

/-- **C3 (amended).** For charge state q = 0, both `get_kumagai_correction` and
`get_freysoldt_correction` return a correction energy of exactly 0.0 regardless
of the dielectric tensor and potential data, and in the eFNV method the model
(point-charge) potentials of exactly the sites *outside* the defect region
radius are set to 0, sites at or inside the radius keeping none (`None`).
(The original claim said *all* per-site model potentials are set to 0; the code
only sets them for sites beyond `defect_region_radius`.) -/
theorem claim_C3_amended_zero_charge_behaviour (env : ExternalEnv) (eng : FnvEngine)
    (entry entryF : DefectEntry) (diel dielF : Option DielectricInput)
    (drr : Option ℚ) (excl : Option (List ℕ)) (doc boc : Option Outcar)
    (dlc blc : Option Locpot) (plot plotF : Bool) (fn fnF : Option String)
    (axis : Option (Fin 3)) (ret : KumagaiReturn) (retF : FreysoldtReturn)
    (hq : entry.charge_state = 0) (hqF : entryF.charge_state = 0)
    (hrun : get_kumagai_correction env entry diel drr excl doc boc plot fn = .ok ret)
    (hrunF : get_freysoldt_correction eng entryF dielF dlc blc plotF fnF axis = .ok retF) :
    ret.result.correction_energy = 0 ∧
    (∀ s ∈ ret.result.metadata_efnv.sites,
      (s.distance > ret.result.metadata_efnv.defect_region_radius →
        s.pc_potential = some 0) ∧
      (¬ s.distance > ret.result.metadata_efnv.defect_region_radius →
        s.pc_potential = none)) ∧
    retF.result.correction_energy = 0 := by
  obtain ⟨dI, T, dps, bps, bulkS, -, -, -, -, -, h6⟩ :=
    (get_kumagai_correction_ok_iff env entry diel drr excl doc boc plot fn ret).mp hrun
  obtain ⟨efnv, hefnv, hret⟩ := (kumagaiTail_ok_iff env entry drr excl plot fn T
    ⟨entry.defect_supercell, dps⟩ ⟨bulkS, bps⟩ ret).mp h6
  have hq0 : (entry.charge_state : ℚ) = 0 := by exact_mod_cast hq
  rw [hq0] at hefnv
  obtain ⟨-, prs, hprs, hefnveq⟩ := (doped_make_efnv_correction_ok_iff env 0
    ⟨entry.defect_supercell, dps⟩ ⟨bulkS, bps⟩ T drr
    entry.defect_supercell_bulk_site_coords env.ewaldAccuracyDefault
    unitConversionDefault excl efnv).mp hefnv
  have hres : ret.result = ⟨efnv.correction_energy, efnv⟩ := by
    subst hret
    split <;> rfl
  refine ⟨?_, ?_, ?_⟩
  · rw [hres]
    show efnv.correction_energy = 0
    rw [hefnveq]
    simp [ExtendedFnvCorrection.correction_energy, rawPointCharge]
  · rw [hres]
    show ∀ s ∈ efnv.sites,
      (s.distance > efnv.defect_region_radius → s.pc_potential = some 0) ∧
      (¬ s.distance > efnv.defect_region_radius → s.pc_potential = none)
    rw [hefnveq]
    dsimp only
    intro s hs
    obtain ⟨sr, hsr, rfl⟩ := List.mem_map.mp hs
    have hnone : sr.1.pc_potential = none := by
      obtain ⟨dp, -, hdp⟩ := exceptMapList_mem_ok _ _ _ hprs sr hsr
      exact sitePair_pc_none env _ _ _ _ dp sr hdp
    have hdist := (assignPcPotential_preserves env entry.defect_supercell.latticeMatrix T
      env.ewaldAccuracyDefault 0 unitConversionDefault
      (effectiveRadius env ⟨entry.defect_supercell, dps⟩ drr) sr).1
    rw [hdist]
    constructor
    · intro hfar
      rw [assignPcPotential_far env entry.defect_supercell.latticeMatrix T
        env.ewaldAccuracyDefault 0 unitConversionDefault _ sr hfar, if_pos rfl]
    · intro hfar
      rw [assignPcPotential_near env entry.defect_supercell.latticeMatrix T
        env.ewaldAccuracyDefault 0 unitConversionDefault _ sr hfar]
      exact hnone
  · obtain ⟨dIF, TF, dl, bl, -, -, -, -, h5⟩ :=
      (get_freysoldt_correction_ok_iff eng entryF dielF dlc blc plotF fnF axis retF).mp hrunF
    dsimp only at h5
    have hresF : retF.result = ⟨eng.energy entryF.charge_state TF dl bl
        entryF.defect_supercell_bulk_site_coords,
        eng.plotData entryF.charge_state TF dl bl
          entryF.defect_supercell_bulk_site_coords⟩ := by
      split at h5
      · rw [h5]
        rfl
      · cases axis with
        | none =>
          obtain ⟨a0, a1, a2, -, -, -, hretF⟩ := h5
          rw [hretF]
          rfl
        | some a =>
          obtain ⟨ax, -, hretF⟩ := h5
          rw [hretF]
          rfl
    rw [hresF]
    dsimp only
    rw [hqF]
    exact eng.energy_zero TF dl bl entryF.defect_supercell_bulk_site_coords

/-- **C9.** `plot_FNV` on plot data whose `pot_plot_data` entry is empty (the
state produced for a neutral defect, q = 0) raises a `ValueError` rather than
producing a plot, and `plot_FNV` never proceeds past this check without
non-empty `pot_plot_data`. -/
theorem claim_C9_plot_FNV_guard (pd : FnvPlotAxisData)
    (h : pd.pot_plot_data = none) :
    plot_FNV pd = .error (.valueError "Input plot_data has no pot_plot_data entry. Cannot plot FNV potential alignment before running correction!") ∧
    (∀ pd2 : FnvPlotAxisData, ∀ ax, plot_FNV pd2 = .ok ax →
      ∃ d, pd2.pot_plot_data = some d) := by
  refine ⟨plot_FNV_error_of_none pd h, ?_⟩
  intro pd2 ax hok
  cases hpd : pd2.pot_plot_data with
  | none => rw [plot_FNV_error_of_none pd2 hpd] at hok; cases hok
  | some d => exact ⟨d, rfl⟩

/-- **C5.** Dielectric normalization is shape-insensitive in result: for every
positive scalar d, supplying the dielectric as the scalar d, as the 3-vector
[d, d, d], or as the 3×3 matrix diag(d, d, d) to either correction entry point
yields identical correction results for the same system, because all three are
normalized to the same 3×3 tensor before any engine logic runs; any other
input shape causes an input-validation error. -/
theorem claim_C5_dielectric_normalization (d : ℚ) (_hd : 0 < d) :
    (convert_dielectric_to_tensor (.scalar d) =
       convert_dielectric_to_tensor (.vec [d, d, d]) ∧
     convert_dielectric_to_tensor (.scalar d) =
       convert_dielectric_to_tensor (.mat [[d, 0, 0], [0, d, 0], [0, 0, d]])) ∧
    (∀ env entry drr excl doc boc plot fn,
      get_kumagai_correction env entry (some (.scalar d)) drr excl doc boc plot fn =
        get_kumagai_correction env entry (some (.vec [d, d, d])) drr excl doc boc plot fn ∧
      get_kumagai_correction env entry (some (.scalar d)) drr excl doc boc plot fn =
        get_kumagai_correction env entry (some (.mat [[d, 0, 0], [0, d, 0], [0, 0, d]]))
          drr excl doc boc plot fn) ∧
    (∀ eng entry dlc blc plot fn axis,
      get_freysoldt_correction eng entry (some (.scalar d)) dlc blc plot fn axis =
        get_freysoldt_correction eng entry (some (.vec [d, d, d])) dlc blc plot fn axis ∧
      get_freysoldt_correction eng entry (some (.scalar d)) dlc blc plot fn axis =
        get_freysoldt_correction eng entry (some (.mat [[d, 0, 0], [0, d, 0], [0, 0, d]]))
          dlc blc plot fn axis) ∧
    (∀ v : List ℚ, v.length ≠ 3 →
      convert_dielectric_to_tensor (.vec v) =
        .error (.valueError "Dielectric constant must be a scalar, a 3x1 vector or a 3x3 matrix")) ∧
    (∀ m : List (List ℚ), ¬ (m.length = 3 ∧ ∀ row ∈ m, row.length = 3) →
      convert_dielectric_to_tensor (.mat m) =
        .error (.valueError "Dielectric constant must be a scalar, a 3x1 vector or a 3x3 matrix")) := by
  refine ⟨⟨convert_scalar_eq_vec d, convert_scalar_eq_mat d⟩, ?_, ?_, ?_, ?_⟩
  · intro env entry drr excl doc boc plot fn
    constructor
    · unfold get_kumagai_correction
      simp only [getArgOrMetadata, ok_bind]
      rw [convert_scalar_eq_vec d]
    · unfold get_kumagai_correction
      simp only [getArgOrMetadata, ok_bind]
      rw [convert_scalar_eq_mat d]
  · intro eng entry dlc blc plot fn axis
    constructor
    · unfold get_freysoldt_correction
      simp only [getArgOrMetadata, ok_bind]
      rw [convert_scalar_eq_vec d]
    · unfold get_freysoldt_correction
      simp only [getArgOrMetadata, ok_bind]
      rw [convert_scalar_eq_mat d]
  · intro v hv
    simp only [convert_dielectric_to_tensor]
    rw [if_neg hv]
  · intro m hm
    simp only [convert_dielectric_to_tensor]
    rw [if_neg hm]

/-- **C8.** Both entry points fail fast with a descriptive error and return no
partial result when a required input is missing: if the dielectric or the
potential data (LOCPOT / site potentials) is neither passed as an argument nor
present in the `defect_entry` calculation_metadata, a `ValueError` naming the
missing quantity is raised; if a supplied OUTCAR lacks atomic core
(electrostatic) potentials, a `ValueError` is raised naming which side (defect
or bulk) and what data was expected.  (`missingInput`/`incompleteOutcar`
embed the `ValueError`s of `_check_if_None_and_raise_error_if_so` and
`_raise_incomplete_outcar_error`; an `Except.error` result carries no
partial result.) -/
theorem claim_C8_missing_input_errors :
    (∀ (env : ExternalEnv) (entry : DefectEntry) drr excl doc boc plot fn,
      entry.metadata_dielectric = none →
      get_kumagai_correction env entry none drr excl doc boc plot fn =
        .error (.missingInput "Dielectric constant")) ∧
    (∀ (eng : FnvEngine) (entry : DefectEntry) dlc blc plot fn axis,
      entry.metadata_dielectric = none →
      get_freysoldt_correction eng entry none dlc blc plot fn axis =
        .error (.missingInput "Dielectric constant")) ∧
    (∀ (env : ExternalEnv) (entry : DefectEntry) diel drr excl boc plot fn dI T,
      getArgOrMetadata diel entry.metadata_dielectric "Dielectric constant" = .ok dI →
      convert_dielectric_to_tensor dI = .ok T →
      entry.metadata_defect_site_potentials = none →
      get_kumagai_correction env entry diel drr excl none boc plot fn =
        .error (.missingInput "Defect OUTCAR (for atomic site potentials)")) ∧
    (∀ (env : ExternalEnv) (entry : DefectEntry) diel drr excl doc plot fn dI T dps,
      getArgOrMetadata diel entry.metadata_dielectric "Dielectric constant" = .ok dI →
      convert_dielectric_to_tensor dI = .ok T →
      getSitePotentials doc entry.metadata_defect_site_potentials "defect"
        "Defect OUTCAR (for atomic site potentials)" = .ok dps →
      entry.metadata_bulk_site_potentials = none →
      get_kumagai_correction env entry diel drr excl doc none plot fn =
        .error (.missingInput "Bulk OUTCAR (for atomic site potentials)")) ∧
    (∀ (env : ExternalEnv) (entry : DefectEntry) diel drr excl boc plot fn dI T
        (oc : Outcar),
      getArgOrMetadata diel entry.metadata_dielectric "Dielectric constant" = .ok dI →
      convert_dielectric_to_tensor dI = .ok T →
      oc.electrostatic_potential = none →
      get_kumagai_correction env entry diel drr excl (some oc) boc plot fn =
        .error (.incompleteOutcar "defect")) ∧
    (∀ (env : ExternalEnv) (entry : DefectEntry) diel drr excl doc plot fn dI T dps
        (oc : Outcar),
      getArgOrMetadata diel entry.metadata_dielectric "Dielectric constant" = .ok dI →
      convert_dielectric_to_tensor dI = .ok T →
      getSitePotentials doc entry.metadata_defect_site_potentials "defect"
        "Defect OUTCAR (for atomic site potentials)" = .ok dps →
      oc.electrostatic_potential = none →
      get_kumagai_correction env entry diel drr excl doc (some oc) plot fn =
        .error (.incompleteOutcar "bulk")) ∧
    (∀ (eng : FnvEngine) (entry : DefectEntry) diel blc plot fn axis dI T,
      getArgOrMetadata diel entry.metadata_dielectric "Dielectric constant" = .ok dI →
      convert_dielectric_to_tensor dI = .ok T →
      entry.metadata_defect_locpot = none →
      get_freysoldt_correction eng entry diel none blc plot fn axis =
        .error (.missingInput "Defect LOCPOT")) ∧
    (∀ (eng : FnvEngine) (entry : DefectEntry) diel dlc plot fn axis dI T dl,
      getArgOrMetadata diel entry.metadata_dielectric "Dielectric constant" = .ok dI →
      convert_dielectric_to_tensor dI = .ok T →
      getArgOrMetadata dlc entry.metadata_defect_locpot "Defect LOCPOT" = .ok dl →
      entry.metadata_bulk_locpot = none →
      get_freysoldt_correction eng entry diel dlc none plot fn axis =
        .error (.missingInput "Bulk LOCPOT")) := by
  refine ⟨?_, ?_, ?_, ?_, ?_, ?_, ?_, ?_⟩
  · intro env entry drr excl doc boc plot fn h
    unfold get_kumagai_correction
    simp [getArgOrMetadata, h, error_bind]
  · intro eng entry dlc blc plot fn axis h
    unfold get_freysoldt_correction
    simp [getArgOrMetadata, h, error_bind]
  · intro env entry diel drr excl boc plot fn dI T h1 h2 h3
    unfold get_kumagai_correction
    rw [h1, ok_bind, h2, ok_bind]
    simp [getSitePotentials, h3, error_bind]
  · intro env entry diel drr excl doc plot fn dI T dps h1 h2 h3 h4
    unfold get_kumagai_correction
    rw [h1, ok_bind, h2, ok_bind, h3, ok_bind]
    simp [getSitePotentials, h4, error_bind]
  · intro env entry diel drr excl boc plot fn dI T oc h1 h2 h3
    unfold get_kumagai_correction
    rw [h1, ok_bind, h2, ok_bind]
    simp [getSitePotentials, h3, error_bind]
  · intro env entry diel drr excl doc plot fn dI T dps oc h1 h2 h3 h4
    unfold get_kumagai_correction
    rw [h1, ok_bind, h2, ok_bind, h3, ok_bind]
    simp [getSitePotentials, h4, error_bind]
  · intro eng entry diel blc plot fn axis dI T h1 h2 h3
    unfold get_freysoldt_correction
    rw [h1, ok_bind, h2, ok_bind]
    simp [getArgOrMetadata, h3, error_bind]
  · intro eng entry diel dlc plot fn axis dI T dl h1 h2 h3 h4
    unfold get_freysoldt_correction
    rw [h1, ok_bind, h2, ok_bind, h3, ok_bind]
    simp [getArgOrMetadata, h4, error_bind]

/-- **C4 (amended).** `get_kumagai_correction` requires the defect and bulk
supercell lattices to be identical under pymatgen lattice equality
(`np.allclose`, rtol 1e-5 / atol 1e-8): if equal, computation proceeds with the
original lattices; if unequal but element-wise within
`np.allclose(..., atol=0.01)` (rtol 1e-5), the bulk lattice is rescaled to the
defect lattice volume and computation proceeds *provided* the rescaled bulk
lattice then compares equal to the defect lattice — otherwise the inner check
of `doped_make_efnv_correction` raises pydefect's `SupercellError` (not a
`ValueError`) and no result is returned; if the lattices differ by more than
the 0.01 tolerance, a `ValueError` is raised and no result is returned.
(The original claim asserted that computation always proceeds in the
within-tolerance case.) -/
theorem claim_C4_amended_lattice_check (env : ExternalEnv) (entry : DefectEntry)
    (diel : Option DielectricInput) (drr : Option ℚ) (excl : Option (List ℕ))
    (doc boc : Option Outcar) (plot : Bool) (fn : Option String)
    (dI : DielectricInput) (T : Mat3) (dps bps : List ℚ)
    (h1 : getArgOrMetadata diel entry.metadata_dielectric "Dielectric constant" = .ok dI)
    (h2 : convert_dielectric_to_tensor dI = .ok T)
    (h3 : getSitePotentials doc entry.metadata_defect_site_potentials "defect"
      "Defect OUTCAR (for atomic site potentials)" = .ok dps)
    (h4 : getSitePotentials boc entry.metadata_bulk_site_potentials "bulk"
      "Bulk OUTCAR (for atomic site potentials)" = .ok bps) :
    (¬ latticeEq entry.bulk_supercell.latticeMatrix entry.defect_supercell.latticeMatrix →
     ¬ npAllClose (1/100000) (1/100) entry.bulk_supercell.latticeMatrix
        entry.defect_supercell.latticeMatrix →
     get_kumagai_correction env entry diel drr excl doc boc plot fn =
       .error (.valueError "Bulk and defect supercells have different lattices, and so the eFNV (Kumagai) correction cannot be computed!")) ∧
    (latticeEq entry.bulk_supercell.latticeMatrix entry.defect_supercell.latticeMatrix →
     get_kumagai_correction env entry diel drr excl doc boc plot fn =
       kumagaiTail env entry drr excl plot fn T ⟨entry.defect_supercell, dps⟩
         ⟨entry.bulk_supercell, bps⟩) ∧
    (¬ latticeEq entry.bulk_supercell.latticeMatrix entry.defect_supercell.latticeMatrix →
     npAllClose (1/100000) (1/100) entry.bulk_supercell.latticeMatrix
        entry.defect_supercell.latticeMatrix →
     get_kumagai_correction env entry diel drr excl doc boc plot fn =
       kumagaiTail env entry drr excl plot fn T ⟨entry.defect_supercell, dps⟩
         ⟨{ entry.bulk_supercell with
            latticeMatrix := env.scaleLattice entry.bulk_supercell.latticeMatrix
              (latticeVolume entry.defect_supercell.latticeMatrix) }, bps⟩ ∧
     (¬ latticeEq entry.defect_supercell.latticeMatrix
        (env.scaleLattice entry.bulk_supercell.latticeMatrix
          (latticeVolume entry.defect_supercell.latticeMatrix)) →
      get_kumagai_correction env entry diel drr excl doc boc plot fn =
        .error (.supercellError "The lattice constants for defect and perfect models are different"))) := by
  refine ⟨?_, ?_, ?_⟩
  · intro heq hclose
    unfold get_kumagai_correction
    rw [h1, ok_bind, h2, ok_bind, h3, ok_bind, h4, ok_bind]
    unfold resolveBulkSupercell
    rw [if_neg heq, if_neg hclose, error_bind]
  · intro heq
    unfold get_kumagai_correction
    rw [h1, ok_bind, h2, ok_bind, h3, ok_bind, h4, ok_bind]
    unfold resolveBulkSupercell
    rw [if_pos heq, ok_bind]
  · intro heq hclose
    have hmain : get_kumagai_correction env entry diel drr excl doc boc plot fn =
        kumagaiTail env entry drr excl plot fn T ⟨entry.defect_supercell, dps⟩
          ⟨{ entry.bulk_supercell with
             latticeMatrix := env.scaleLattice entry.bulk_supercell.latticeMatrix
               (latticeVolume entry.defect_supercell.latticeMatrix) }, bps⟩ := by
      unfold get_kumagai_correction
      rw [h1, ok_bind, h2, ok_bind, h3, ok_bind, h4, ok_bind]
      unfold resolveBulkSupercell
      rw [if_neg heq, if_pos hclose, ok_bind]
    refine ⟨hmain, ?_⟩
    intro hscaled
    rw [hmain]
    unfold kumagaiTail doped_make_efnv_correction
    rw [if_neg hscaled, error_bind]

/-- `List.contains` over a cons, spelled for rewriting. -/
theorem contains_cons_eq (a b : ℕ) (l : List ℕ) :
    (a :: l).contains b = (decide (b = a) || l.contains b) := by
  simp [List.contains_cons]

/-- **C6 (amended).** For every input, adding an atom index to
`excluded_indices` in the eFNV correction never changes the computed
point-charge electrostatic term, while excluding an atom that was previously
inside the sampling region (it carried a model potential) removes it from the
alignment fit, changing the fitted alignment constant (`ave_pot_diff`) *if and
only if* the atom's sampled value (potential-difference − model-potential)
differs from the mean over the remaining sampled sites.  (The original claim
asserted the alignment constant always changes; it is unchanged exactly when
the excluded value equals the mean of the rest.) -/
theorem claim_C6_amended_exclusion_effect (env : ExternalEnv) (q : ℚ)
    (cr pr : CalcResults) (diel : Mat3) (drr : Option ℚ) (coords : Option Vec3)
    (acc u : ℚ) (excl : List ℕ) (i p : ℕ) (m1 m2 : List (ℕ × ℕ))
    (c1 : ExtendedFnvCorrection)
    (hmap : env.atomMapping cr.struct pr.struct = m1 ++ (i, p) :: m2)
    (hm1 : ∀ dp ∈ m1, dp.1 ≠ i) (hm2 : ∀ dp ∈ m2, dp.1 ≠ i)
    (hexcl : excl.contains i = false)
    (hrun : doped_make_efnv_correction env q cr pr diel drr coords acc u
      (some excl) = .ok c1) :
    (∀ e1 e2 c c2,
      doped_make_efnv_correction env q cr pr diel drr coords acc u e1 = .ok c →
      doped_make_efnv_correction env q cr pr diel drr coords acc u e2 = .ok c2 →
      c.point_charge_correction = c2.point_charge_correction) ∧
    ∃ c2, doped_make_efnv_correction env q cr pr diel drr coords acc u
        (some (i :: excl)) = .ok c2 ∧
      c2.point_charge_correction = c1.point_charge_correction ∧
      ∃ s1 sI s2, c1.sites = s1 ++ sI :: s2 ∧ c2.sites = s1 ++ s2 ∧
        (∀ pc0, sI.pc_potential = some pc0 → sampleValues (s1 ++ s2) ≠ [] →
          (c1.ave_pot_diff ≠ c2.ave_pot_diff ↔
            sI.potential - pc0 ≠ c2.ave_pot_diff)) := by
  constructor
  · intro e1 e2 c c2 hc hc2
    obtain ⟨-, prsA, -, rfl⟩ := (doped_make_efnv_correction_ok_iff env q cr pr diel
      drr coords acc u e1 c).mp hc
    obtain ⟨-, prsB, -, rfl⟩ := (doped_make_efnv_correction_ok_iff env q cr pr diel
      drr coords acc u e2 c2).mp hc2
    rfl
  obtain ⟨hguard, prs, hprs, hc1eq⟩ := (doped_make_efnv_correction_ok_iff env q cr pr
    diel drr coords acc u (some excl) c1).mp hrun
  unfold buildPairs at hprs
  rw [hmap, List.filter_append, List.filter_cons] at hprs
  have hnotmem : i ∉ excl := by simpa using hexcl
  have hqfi : (!((some excl).getD []).contains (i, p).1) = true := by
    simp [hnotmem]
  rw [if_pos hqfi] at hprs
  obtain ⟨y1, yrest, hy1, hyrest, rfl⟩ := (exceptMapList_append_ok _ _ _ _).mp hprs
  obtain ⟨yI, y2, hfI, hy2, rfl⟩ := (exceptMapList_cons_ok _ _ _ _).mp hyrest
  -- the run with i additionally excluded
  have hfiltm1 : m1.filter (fun dp => !((some (i :: excl)).getD []).contains dp.1) =
      m1.filter (fun dp => !((some excl).getD []).contains dp.1) := by
    apply List.filter_congr
    intro dp hdp
    have hne := hm1 dp hdp
    simp [contains_cons_eq, hne]
  have hfiltm2 : m2.filter (fun dp => !((some (i :: excl)).getD []).contains dp.1) =
      m2.filter (fun dp => !((some excl).getD []).contains dp.1) := by
    apply List.filter_congr
    intro dp hdp
    have hne := hm2 dp hdp
    simp [contains_cons_eq, hne]
  have hbuild2 : buildPairs env cr pr coords (some (i :: excl)) = .ok (y1 ++ y2) := by
    unfold buildPairs
    rw [hmap, List.filter_append, List.filter_cons]
    rw [if_neg (by simp [contains_cons_eq])]
    rw [hfiltm1, hfiltm2]
    exact (exceptMapList_append_ok _ _ _ _).mpr ⟨y1, y2, hy1, hy2, rfl⟩
  refine ⟨_, (doped_make_efnv_correction_ok_iff env q cr pr diel drr coords acc u
    (some (i :: excl)) _).mpr ⟨hguard, y1 ++ y2, hbuild2, rfl⟩, ?_, ?_⟩
  · rw [hc1eq]
  refine ⟨(y1.map (assignPcPotential env cr.struct.latticeMatrix diel acc q u
      (effectiveRadius env cr drr))),
    assignPcPotential env cr.struct.latticeMatrix diel acc q u
      (effectiveRadius env cr drr) yI,
    (y2.map (assignPcPotential env cr.struct.latticeMatrix diel acc q u
      (effectiveRadius env cr drr))), ?_, ?_, ?_⟩
  · rw [hc1eq]
    simp
  · simp
  · intro pc0 hpc0 hne
    have hsamp1 : sampleValues
        ((y1.map (assignPcPotential env cr.struct.latticeMatrix diel acc q u
          (effectiveRadius env cr drr))) ++
         (assignPcPotential env cr.struct.latticeMatrix diel acc q u
          (effectiveRadius env cr drr) yI) ::
         (y2.map (assignPcPotential env cr.struct.latticeMatrix diel acc q u
          (effectiveRadius env cr drr)))) =
        sampleValues (y1.map (assignPcPotential env cr.struct.latticeMatrix diel acc q u
          (effectiveRadius env cr drr))) ++
        ((assignPcPotential env cr.struct.latticeMatrix diel acc q u
          (effectiveRadius env cr drr) yI).potential - pc0) ::
        sampleValues (y2.map (assignPcPotential env cr.struct.latticeMatrix diel acc q u
          (effectiveRadius env cr drr))) := by
      rw [sampleValues_append]
      congr 1
      unfold sampleValues
      rw [List.filterMap_cons]
      rw [hpc0]
      rfl
    have have1 : c1.ave_pot_diff = listMean
        (sampleValues (y1.map (assignPcPotential env cr.struct.latticeMatrix diel acc q u
          (effectiveRadius env cr drr))) ++
        ((assignPcPotential env cr.struct.latticeMatrix diel acc q u
          (effectiveRadius env cr drr) yI).potential - pc0) ::
        sampleValues (y2.map (assignPcPotential env cr.struct.latticeMatrix diel acc q u
          (effectiveRadius env cr drr)))) := by
      rw [hc1eq]
      unfold ExtendedFnvCorrection.ave_pot_diff
      dsimp only
      rw [List.map_append, List.map_cons]
      rw [hsamp1]
    have have2 : ExtendedFnvCorrection.ave_pot_diff
        ⟨q, rawPointCharge env cr diel acc q * u, effectiveRadius env cr drr,
         (y1 ++ y2).map (assignPcPotential env cr.struct.latticeMatrix diel acc q u
           (effectiveRadius env cr drr)),
         effectiveCoords env cr pr coords⟩ = listMean
        (sampleValues (y1.map (assignPcPotential env cr.struct.latticeMatrix diel acc q u
          (effectiveRadius env cr drr))) ++
        sampleValues (y2.map (assignPcPotential env cr.struct.latticeMatrix diel acc q u
          (effectiveRadius env cr drr)))) := by
      unfold ExtendedFnvCorrection.ave_pot_diff
      dsimp only
      rw [List.map_append, sampleValues_append]
    have hne2 : sampleValues (y1.map (assignPcPotential env cr.struct.latticeMatrix diel
        acc q u (effectiveRadius env cr drr))) ++
        sampleValues (y2.map (assignPcPotential env cr.struct.latticeMatrix diel acc q u
          (effectiveRadius env cr drr))) ≠ [] := by
      rw [← sampleValues_append]
      exact hne
    have hiff := listMean_append_cons_eq_iff
      (sampleValues (y1.map (assignPcPotential env cr.struct.latticeMatrix diel acc q u
        (effectiveRadius env cr drr))))
      (sampleValues (y2.map (assignPcPotential env cr.struct.latticeMatrix diel acc q u
        (effectiveRadius env cr drr))))
      ((assignPcPotential env cr.struct.latticeMatrix diel acc q u
        (effectiveRadius env cr drr) yI).potential - pc0) hne2
    rw [have1, have2, ← sampleValues_append]
    rw [sampleValues_append]
    exact not_congr hiff

/-- Two successful evaluations of the same `Except` value agree. -/
theorem except_ok_det {x : Except CorrErr α} {a b : α}
    (h1 : x = .ok a) (h2 : x = .ok b) : a = b :=
  Except.ok.inj (h1.symm.trans h2)

/-- The `CorrectionResult` value carried by any successful
`get_freysoldt_correction` run, together with the resolved inputs. -/
theorem freysoldt_result_of_ok (eng : FnvEngine) (entry : DefectEntry)
    (diel : Option DielectricInput) (dlc blc : Option Locpot) (plot : Bool)
    (fn : Option String) (axis : Option (Fin 3)) (ret : FreysoldtReturn)
    (h : get_freysoldt_correction eng entry diel dlc blc plot fn axis = .ok ret) :
    ∃ dI T dl bl,
      getArgOrMetadata diel entry.metadata_dielectric "Dielectric constant" = .ok dI ∧
      convert_dielectric_to_tensor dI = .ok T ∧
      getArgOrMetadata dlc entry.metadata_defect_locpot "Defect LOCPOT" = .ok dl ∧
      getArgOrMetadata blc entry.metadata_bulk_locpot "Bulk LOCPOT" = .ok bl ∧
      ret.result = ⟨eng.energy entry.charge_state T dl bl
          entry.defect_supercell_bulk_site_coords,
        eng.plotData entry.charge_state T dl bl
          entry.defect_supercell_bulk_site_coords⟩ := by
  obtain ⟨dI, T, dl, bl, h1, h2, h3, h4, h5⟩ :=
    (get_freysoldt_correction_ok_iff eng entry diel dlc blc plot fn axis ret).mp h
  refine ⟨dI, T, dl, bl, h1, h2, h3, h4, ?_⟩
  dsimp only at h5
  split at h5
  · rw [h5]
    rfl
  · cases axis with
    | none =>
      obtain ⟨a0, a1, a2, -, -, -, hretF⟩ := h5
      rw [hretF]
      rfl
    | some a =>
      obtain ⟨ax, -, hretF⟩ := h5
      rw [hretF]
      rfl

/-- **C10 (amended).** The return shape of both public entry points depends on
the `plot` and `filename` arguments: when `plot` is False and `filename` is
None, `get_freysoldt_correction` and `get_kumagai_correction` return the
`CorrectionResult` alone; otherwise each returns a pair of
(`CorrectionResult`, figure) *when the plotting succeeds*, with the same
`CorrectionResult` value in both cases.  For the FNV method with charge state
q = 0 the plot data is empty, so requesting a plot (or a filename) makes
`plot_FNV` raise its `ValueError` and nothing is returned — the original
claim's unconditional "otherwise returns a pair" fails there. -/
theorem claim_C10_amended_return_shape :
    (∀ (env : ExternalEnv) (entry : DefectEntry) diel drr excl doc boc plot fn ret,
      get_kumagai_correction env entry diel drr excl doc boc plot fn = .ok ret →
      ((plot = false ∧ fn = none) → ∃ r, ret = .single r) ∧
      ((plot = true ∨ fn ≠ none) → ∃ r fig, ret = .withFig r fig)) ∧
    (∀ (env : ExternalEnv) (entry : DefectEntry) diel drr excl doc boc p1 f1 p2 f2
        ret1 ret2,
      get_kumagai_correction env entry diel drr excl doc boc p1 f1 = .ok ret1 →
      get_kumagai_correction env entry diel drr excl doc boc p2 f2 = .ok ret2 →
      ret1.result = ret2.result) ∧
    (∀ (eng : FnvEngine) (entry : DefectEntry) diel dlc blc plot fn axis ret,
      get_freysoldt_correction eng entry diel dlc blc plot fn axis = .ok ret →
      ((plot = false ∧ fn = none) → ∃ r, ret = .single r) ∧
      ((plot = true ∨ fn ≠ none) → ∃ r fig, ret = .withFig r fig)) ∧
    (∀ (eng : FnvEngine) (entry : DefectEntry) diel dlc blc p1 f1 a1 p2 f2 a2
        ret1 ret2,
      get_freysoldt_correction eng entry diel dlc blc p1 f1 a1 = .ok ret1 →
      get_freysoldt_correction eng entry diel dlc blc p2 f2 a2 = .ok ret2 →
      ret1.result = ret2.result) ∧
    (∀ (eng : FnvEngine) (entry : DefectEntry) diel dlc blc plot fn axis dI T dl bl,
      entry.charge_state = 0 →
      getArgOrMetadata diel entry.metadata_dielectric "Dielectric constant" = .ok dI →
      convert_dielectric_to_tensor dI = .ok T →
      getArgOrMetadata dlc entry.metadata_defect_locpot "Defect LOCPOT" = .ok dl →
      getArgOrMetadata blc entry.metadata_bulk_locpot "Bulk LOCPOT" = .ok bl →
      (plot = true ∨ fn ≠ none) →
      get_freysoldt_correction eng entry diel dlc blc plot fn axis =
        .error (.valueError "Input plot_data has no pot_plot_data entry. Cannot plot FNV potential alignment before running correction!")) := by
  refine ⟨?_, ?_, ?_, ?_, ?_⟩
  · intro env entry diel drr excl doc boc plot fn ret hrun
    obtain ⟨dI, T, dps, bps, bulkS, -, -, -, -, -, h6⟩ :=
      (get_kumagai_correction_ok_iff env entry diel drr excl doc boc plot fn ret).mp hrun
    obtain ⟨efnv, -, hret⟩ := (kumagaiTail_ok_iff env entry drr excl plot fn T
      ⟨entry.defect_supercell, dps⟩ ⟨bulkS, bps⟩ ret).mp h6
    constructor
    · rintro ⟨rfl, rfl⟩
      rw [hret]
      exact ⟨⟨efnv.correction_energy, efnv⟩, by simp⟩
    · intro hplot
      have hcond : (!plot && fn.isNone) = false := by
        rcases hplot with rfl | hfn
        · simp
        · cases fn with
          | none => exact absurd rfl hfn
          | some s => simp
      rw [hret]
      exact ⟨⟨efnv.correction_energy, efnv⟩, ⟨efnv⟩, by simp [hcond]⟩
  · intro env entry diel drr excl doc boc p1 f1 p2 f2 ret1 ret2 hrun1 hrun2
    obtain ⟨dI, T, dps, bps, bulkS, g1, g2, g3, g4, g5, h6⟩ :=
      (get_kumagai_correction_ok_iff env entry diel drr excl doc boc p1 f1 ret1).mp hrun1
    obtain ⟨dI2, T2, dps2, bps2, bulkS2, g1b, g2b, g3b, g4b, g5b, h6b⟩ :=
      (get_kumagai_correction_ok_iff env entry diel drr excl doc boc p2 f2 ret2).mp hrun2
    obtain rfl : dI = dI2 := except_ok_det g1 g1b
    obtain rfl : T = T2 := except_ok_det g2 g2b
    obtain rfl : dps = dps2 := except_ok_det g3 g3b
    obtain rfl : bps = bps2 := except_ok_det g4 g4b
    obtain rfl : bulkS = bulkS2 := except_ok_det g5 g5b
    obtain ⟨efnv, he, hret⟩ := (kumagaiTail_ok_iff env entry drr excl p1 f1 T
      ⟨entry.defect_supercell, dps⟩ ⟨bulkS, bps⟩ ret1).mp h6
    obtain ⟨efnv2, he2, hret2⟩ := (kumagaiTail_ok_iff env entry drr excl p2 f2 T
      ⟨entry.defect_supercell, dps⟩ ⟨bulkS, bps⟩ ret2).mp h6b
    obtain rfl : efnv = efnv2 := except_ok_det he he2
    rw [hret, hret2]
    split <;> split <;> rfl
  · intro eng entry diel dlc blc plot fn axis ret hrun
    obtain ⟨dI, T, dl, bl, -, -, -, -, h5⟩ :=
      (get_freysoldt_correction_ok_iff eng entry diel dlc blc plot fn axis ret).mp hrun
    dsimp only at h5
    constructor
    · rintro ⟨rfl, rfl⟩
      rw [if_pos (by simp)] at h5
      exact ⟨_, h5⟩
    · intro hplot
      have hcond : (!plot && fn.isNone) = false := by
        rcases hplot with rfl | hfn
        · simp
        · cases fn with
          | none => exact absurd rfl hfn
          | some s => simp
      rw [hcond] at h5
      simp only [Bool.false_eq_true, if_false] at h5
      cases axis with
      | none =>
        obtain ⟨a0, a1, a2, -, -, -, hret⟩ := h5
        exact ⟨_, _, hret⟩
      | some a =>
        obtain ⟨ax, -, hret⟩ := h5
        exact ⟨_, _, hret⟩
  · intro eng entry diel dlc blc p1 f1 a1 p2 f2 a2 ret1 ret2 hrun1 hrun2
    obtain ⟨dI, T, dl, bl, g1, g2, g3, g4, hres1⟩ :=
      freysoldt_result_of_ok eng entry diel dlc blc p1 f1 a1 ret1 hrun1
    obtain ⟨dI2, T2, dl2, bl2, g1b, g2b, g3b, g4b, hres2⟩ :=
      freysoldt_result_of_ok eng entry diel dlc blc p2 f2 a2 ret2 hrun2
    obtain rfl : dI = dI2 := except_ok_det g1 g1b
    obtain rfl : T = T2 := except_ok_det g2 g2b
    obtain rfl : dl = dl2 := except_ok_det g3 g3b
    obtain rfl : bl = bl2 := except_ok_det g4 g4b
    rw [hres1, hres2]
  · intro eng entry diel dlc blc plot fn axis dI T dl bl hq h1 h2 h3 h4 hplot
    have hcond : (!plot && fn.isNone) = false := by
      rcases hplot with rfl | hfn
      · simp
      · cases fn with
        | none => exact absurd rfl hfn
        | some s => simp
    unfold get_freysoldt_correction
    rw [h1, ok_bind, h2, ok_bind, h3, ok_bind, h4, ok_bind]
    dsimp only
    rw [hcond]
    simp only [Bool.false_eq_true, if_false]
    rw [hq]
    cases axis with
    | none =>
      dsimp only
      rw [plot_FNV_error_of_none _ (eng.plotData_empty_zero T dl bl
        entry.defect_supercell_bulk_site_coords 0), error_bind]
    | some a =>
      dsimp only
      rw [plot_FNV_error_of_none _ (eng.plotData_empty_zero T dl bl
        entry.defect_supercell_bulk_site_coords a), error_bind]

/-! ## Concrete instances for witnesses and counterexamples -/

/-- Decidable equality on `Except`, for evaluating the embedding at concrete
inputs. -/
instance instDecEqExcept {ε α : Type} [DecidableEq ε] [DecidableEq α] :
    DecidableEq (Except ε α) := fun x y =>
  match x, y with
  | .ok a, .ok b =>
    if h : a = b then .isTrue (by rw [h])
    else .isFalse (fun hh => h (Except.ok.inj hh))
  | .error e, .error f =>
    if h : e = f then .isTrue (by rw [h])
    else .isFalse (fun hh => h (Except.error.inj hh))
  | .ok _, .error _ => .isFalse (fun hh => Except.noConfusion hh)
  | .error _, .ok _ => .isFalse (fun hh => Except.noConfusion hh)

/-- A cubic 10 Å lattice matrix. -/
def matC : Mat3 := ![![10, 0, 0], ![0, 10, 0], ![0, 0, 10]]

/-- The canonical 3×3 tensor for dielectric constant 10. -/
def dielT : Mat3 := fun i j => if i = j then 10 else 0

/-- A two-site structure: one site near the origin, one far. -/
def structC : PmgStructure :=
  ⟨matC, [⟨"A", ![1/10, 0, 0]⟩, ⟨"B", ![7/10, 0, 0]⟩]⟩

/-- A concrete external environment: simple computable stand-ins for the
opaque collaborator functions (distance along the first axis, constant Ewald
energies, identity atom mapping, Wigner–Seitz radius 5 Å).  `scaleLattice` is
the identity, which is pymatgen's exact behaviour whenever the target volume
equals the current volume (the only case exercised below). -/
def envC : ExternalEnv where
  getDistance := fun _ a b => 10 * |b 0 - a 0|
  ewaldLatticeEnergy := fun _ _ _ => -2
  ewaldAtomicSitePotential := fun _ _ _ rel => rel 0
  calcMaxSphereRadius := fun _ => 5
  atomMapping := fun cs _ => (List.range cs.sites.length).map (fun k => (k, k))
  defectCenterCoord := fun _ _ => ![0, 0, 0]
  scaleLattice := fun m _ => m
  ewaldAccuracyDefault := 1/100

/-- A concrete Locpot payload. -/
def lpC : Locpot := ⟨fun _ => [1, 2, 3]⟩

/-- A second concrete Locpot payload. -/
def lpB : Locpot := ⟨fun _ => [0, 1, 2]⟩

/-- A defect entry with charge −2 and all metadata present. -/
def entryC : DefectEntry where
  charge_state := -2
  metadata_dielectric := some (.scalar 10)
  metadata_defect_site_potentials := some [1, 2]
  metadata_bulk_site_potentials := some [1/2, 1]
  metadata_defect_locpot := some lpC
  metadata_bulk_locpot := some lpB
  defect_supercell := structC
  bulk_supercell := structC
  defect_supercell_bulk_site_coords := some ![0, 0, 0]

/-- `entryC` with charge state 0. -/
def entry0 : DefectEntry := { entryC with charge_state := 0 }

/-- The eFNV correction computed for `entryC`: site "A" (distance 1 Å) is
inside the sampling radius 5 and keeps no model potential; site "B"
(distance 7 Å) is sampled. -/
def efnvC : ExtendedFnvCorrection :=
  ⟨-2, 8 * unitConversionDefault, 5,
   [⟨"A", 1, 1/2, none⟩, ⟨"B", 7, 1, some (-(7/5 * unitConversionDefault))⟩],
   ![0, 0, 0]⟩

/-- The return value of the `entryC` Kumagai run. -/
def retC : KumagaiReturn := .single ⟨8 * unitConversionDefault, efnvC⟩

/-- The eFNV correction computed for `entry0` (charge 0). -/
def efnv0 : ExtendedFnvCorrection :=
  ⟨0, 0, 5, [⟨"A", 1, 1/2, none⟩, ⟨"B", 7, 1, some 0⟩], ![0, 0, 0]⟩

/-- The `CorrectionResult` of the `entry0` Kumagai run. -/
def res0 : CorrectionResult := ⟨0, efnv0⟩

/-- The cubic lattice agrees with itself under pymatgen equality. -/
theorem latticeEq_matC : latticeEq matC matC := by
  intro i j
  fin_cases i <;> fin_cases j <;> norm_num [npIsClose, matC]

/-- Bulk/defect lattices equal: the bulk supercell passes through unchanged. -/
theorem resolveBulk_structC : resolveBulkSupercell envC structC structC = .ok structC := by
  unfold resolveBulkSupercell
  rw [if_pos (show latticeEq structC.latticeMatrix structC.latticeMatrix from latticeEq_matC)]

/-- Defect-side calculation results for `entryC` / `entry0`. -/
def crC : CalcResults := ⟨structC, [1, 2]⟩

/-- Bulk-side calculation results for `entryC` / `entry0`. -/
def prC : CalcResults := ⟨structC, [1/2, 1]⟩

/-- Relative coordinate of site "A" from the defect centre. -/
def relA : Vec3 := fun k => ![1/10, 0, 0] k - ![0, 0, 0] k

/-- Relative coordinate of site "B" from the defect centre. -/
def relB : Vec3 := fun k => ![7/10, 0, 0] k - ![0, 0, 0] k

theorem sitePairC_A : sitePair envC crC prC matC ![0, 0, 0] (0, 0) =
    .ok (⟨"A", 1, 1/2, none⟩, relA) := by
  norm_num [sitePair, getSiteAt, getPotAt, structC, crC, prC, envC, matC,
    Bind.bind, Except.bind, pure, Except.pure, abs_of_pos, abs_of_nonneg]
  funext k
  fin_cases k <;> norm_num [relA]

theorem sitePairC_B : sitePair envC crC prC matC ![0, 0, 0] (1, 1) =
    .ok (⟨"B", 7, 1, none⟩, relB) := by
  norm_num [sitePair, getSiteAt, getPotAt, structC, crC, prC, envC, matC,
    Bind.bind, Except.bind, pure, Except.pure, abs_of_pos, abs_of_nonneg]
  funext k
  fin_cases k <;> norm_num [relB]

theorem buildPairsC : buildPairs envC crC prC (some ![0, 0, 0]) none =
    .ok [(⟨"A", 1, 1/2, none⟩, relA), (⟨"B", 7, 1, none⟩, relB)] := by
  show exceptMapList (sitePair envC crC prC matC ![0, 0, 0]) [(0, 0), (1, 1)] = _
  simp only [exceptMapList, sitePairC_A, ok_bind, sitePairC_B]
  rfl

theorem doped_make_entryC : doped_make_efnv_correction envC (-2) crC prC dielT none
    (some ![0, 0, 0]) (1/100) unitConversionDefault none = .ok efnvC := by
  apply (doped_make_efnv_correction_ok_iff envC (-2) crC prC dielT none
    (some ![0, 0, 0]) (1/100) unitConversionDefault none efnvC).mpr
  refine ⟨latticeEq_matC, [(⟨"A", 1, 1/2, none⟩, relA), (⟨"B", 7, 1, none⟩, relB)],
    buildPairsC, ?_⟩
  have hA : assignPcPotential envC crC.struct.latticeMatrix dielT (1/100) (-2)
      unitConversionDefault (effectiveRadius envC crC none)
      (⟨"A", 1, 1/2, none⟩, relA) = ⟨"A", 1, 1/2, none⟩ := by
    apply assignPcPotential_near
    norm_num [effectiveRadius, envC]
  have hB : assignPcPotential envC crC.struct.latticeMatrix dielT (1/100) (-2)
      unitConversionDefault (effectiveRadius envC crC none)
      (⟨"B", 7, 1, none⟩, relB) = ⟨"B", 7, 1, some (-(7/5 * unitConversionDefault))⟩ := by
    unfold assignPcPotential
    rw [if_pos (by norm_num [effectiveRadius, envC])]
    rw [if_neg (by norm_num)]
    have : envC.ewaldAtomicSitePotential crC.struct.latticeMatrix dielT (1/100) relB
        * (-2) * unitConversionDefault = -(7/5 * unitConversionDefault) := by
      show relB 0 * (-2) * unitConversionDefault = _
      norm_num [relB]
    rw [this]
  rw [List.map_cons, List.map_cons, List.map_nil, hA, hB]
  unfold efnvC rawPointCharge effectiveRadius effectiveCoords
  norm_num [envC, crC]

theorem run_entryC : get_kumagai_correction envC entryC none none none none none
    false none = .ok retC := by
  apply (get_kumagai_correction_ok_iff envC entryC none none none none none
    false none retC).mpr
  refine ⟨.scalar 10, dielT, [1, 2], [1/2, 1], structC, rfl, rfl, rfl, rfl,
    resolveBulk_structC, ?_⟩
  apply (kumagaiTail_ok_iff envC entryC none none false none dielT crC prC retC).mpr
  refine ⟨efnvC, ?_, rfl⟩
  have hcast : ((entryC.charge_state : ℤ) : ℚ) = -2 := by norm_num [entryC]
  rw [show entryC.defect_supercell_bulk_site_coords = some ![0, 0, 0] from rfl, hcast]
  exact doped_make_entryC

theorem doped_make_entry0 : doped_make_efnv_correction envC 0 crC prC dielT none
    (some ![0, 0, 0]) (1/100) unitConversionDefault none = .ok efnv0 := by
  apply (doped_make_efnv_correction_ok_iff envC 0 crC prC dielT none
    (some ![0, 0, 0]) (1/100) unitConversionDefault none efnv0).mpr
  refine ⟨latticeEq_matC, [(⟨"A", 1, 1/2, none⟩, relA), (⟨"B", 7, 1, none⟩, relB)],
    buildPairsC, ?_⟩
  have hA : assignPcPotential envC crC.struct.latticeMatrix dielT (1/100) 0
      unitConversionDefault (effectiveRadius envC crC none)
      (⟨"A", 1, 1/2, none⟩, relA) = ⟨"A", 1, 1/2, none⟩ := by
    apply assignPcPotential_near
    norm_num [effectiveRadius, envC]
  have hB : assignPcPotential envC crC.struct.latticeMatrix dielT (1/100) 0
      unitConversionDefault (effectiveRadius envC crC none)
      (⟨"B", 7, 1, none⟩, relB) = ⟨"B", 7, 1, some 0⟩ := by
    unfold assignPcPotential
    rw [if_pos (by norm_num [effectiveRadius, envC])]
    rw [if_pos rfl]
  rw [List.map_cons, List.map_cons, List.map_nil, hA, hB]
  unfold efnv0 rawPointCharge effectiveRadius effectiveCoords
  norm_num [envC, crC]

theorem run_entry0 : get_kumagai_correction envC entry0 none none none none none
    false none = .ok (.single res0) := by
  apply (get_kumagai_correction_ok_iff envC entry0 none none none none none
    false none (.single res0)).mpr
  refine ⟨.scalar 10, dielT, [1, 2], [1/2, 1], structC, rfl, rfl, rfl, rfl,
    resolveBulk_structC, ?_⟩
  apply (kumagaiTail_ok_iff envC entry0 none none false none dielT crC prC
    (.single res0)).mpr
  refine ⟨efnv0, ?_, rfl⟩
  have hcast : ((entry0.charge_state : ℤ) : ℚ) = 0 := by norm_num [entry0, entryC]
  rw [show entry0.defect_supercell_bulk_site_coords = some ![0, 0, 0] from rfl, hcast]
  exact doped_make_entry0

/-- Concrete FNV engine: `Modelled from the spec:` any engine satisfying the
q = 0 edge-case properties; this instance returns the charge as the energy for
nonzero q and a fixed plot payload. -/
def pdC : PotPlotData := ⟨[1], [1], [1], [1], (0, 1), 1/2⟩

/-- A concrete `FnvEngine` instance used to instantiate witnesses. -/
def engC : FnvEngine where
  energy := fun q _ _ _ _ => if q = 0 then 0 else (q : ℚ)
  plotData := fun q _ _ _ _ _ => ⟨if q = 0 then none else some pdC⟩
  energy_zero := by
    intro diel dl bl fc
    simp
  plotData_empty_zero := by
    intro diel dl bl fc a
    simp

theorem run_freysoldt_entry0 : get_freysoldt_correction engC entry0 none none none
    false none none = .ok (.single ⟨0, fun _ => ⟨none⟩⟩) := rfl

/-- Three-site structure for the exclusion experiment: one site inside the
sampling radius, two outside with equal potential differences. -/
def structC6 : PmgStructure :=
  ⟨matC, [⟨"A", ![1/10, 0, 0]⟩, ⟨"B", ![6/10, 0, 0]⟩, ⟨"B", ![8/10, 0, 0]⟩]⟩

/-- `envC` with a constant-zero atomic-site potential, so the two sampled
sites have equal sampled values. -/
def envC6 : ExternalEnv := { envC with ewaldAtomicSitePotential := fun _ _ _ _ => 0 }

/-- Defect-side results for the exclusion experiment. -/
def crC6 : CalcResults := ⟨structC6, [1, 3, 3]⟩

/-- Bulk-side results for the exclusion experiment. -/
def prC6 : CalcResults := ⟨structC6, [0, 1, 1]⟩

/-- Entry for the exclusion experiment (charge −2). -/
def entryC6 : DefectEntry :=
  { entryC with
    metadata_defect_site_potentials := some [1, 3, 3]
    metadata_bulk_site_potentials := some [0, 1, 1]
    defect_supercell := structC6
    bulk_supercell := structC6 }

/-- Relative coordinate of the second site of `structC6`. -/
def relB6 : Vec3 := fun k => ![6/10, 0, 0] k - ![0, 0, 0] k

/-- Relative coordinate of the third site of `structC6`. -/
def relC6 : Vec3 := fun k => ![8/10, 0, 0] k - ![0, 0, 0] k

theorem sitePairC6_0 : sitePair envC6 crC6 prC6 matC ![0, 0, 0] (0, 0) =
    .ok (⟨"A", 1, 1, none⟩, relA) := by
  norm_num [sitePair, getSiteAt, getPotAt, structC6, crC6, prC6, envC6, envC, matC,
    Bind.bind, Except.bind, pure, Except.pure, abs_of_pos, abs_of_nonneg]
  funext k
  fin_cases k <;> norm_num [relA]

theorem sitePairC6_1 : sitePair envC6 crC6 prC6 matC ![0, 0, 0] (1, 1) =
    .ok (⟨"B", 6, 2, none⟩, relB6) := by
  norm_num [sitePair, getSiteAt, getPotAt, structC6, crC6, prC6, envC6, envC, matC,
    Bind.bind, Except.bind, pure, Except.pure, abs_of_pos, abs_of_nonneg]
  funext k
  fin_cases k <;> norm_num [relB6]

theorem sitePairC6_2 : sitePair envC6 crC6 prC6 matC ![0, 0, 0] (2, 2) =
    .ok (⟨"B", 8, 2, none⟩, relC6) := by
  norm_num [sitePair, getSiteAt, getPotAt, structC6, crC6, prC6, envC6, envC, matC,
    Bind.bind, Except.bind, pure, Except.pure, abs_of_pos, abs_of_nonneg]
  funext k
  fin_cases k <;> norm_num [relC6]

theorem buildPairsC6_nil : buildPairs envC6 crC6 prC6 (some ![0, 0, 0]) (some []) =
    .ok [(⟨"A", 1, 1, none⟩, relA), (⟨"B", 6, 2, none⟩, relB6),
         (⟨"B", 8, 2, none⟩, relC6)] := by
  show exceptMapList (sitePair envC6 crC6 prC6 matC ![0, 0, 0])
    [(0, 0), (1, 1), (2, 2)] = _
  simp only [exceptMapList, sitePairC6_0, ok_bind, sitePairC6_1, sitePairC6_2]
  rfl

theorem buildPairsC6_none : buildPairs envC6 crC6 prC6 (some ![0, 0, 0]) none =
    .ok [(⟨"A", 1, 1, none⟩, relA), (⟨"B", 6, 2, none⟩, relB6),
         (⟨"B", 8, 2, none⟩, relC6)] := by
  show exceptMapList (sitePair envC6 crC6 prC6 matC ![0, 0, 0])
    [(0, 0), (1, 1), (2, 2)] = _
  simp only [exceptMapList, sitePairC6_0, ok_bind, sitePairC6_1, sitePairC6_2]
  rfl

theorem buildPairsC6_ex2 : buildPairs envC6 crC6 prC6 (some ![0, 0, 0]) (some [2]) =
    .ok [(⟨"A", 1, 1, none⟩, relA), (⟨"B", 6, 2, none⟩, relB6)] := by
  show exceptMapList (sitePair envC6 crC6 prC6 matC ![0, 0, 0]) [(0, 0), (1, 1)] = _
  simp only [exceptMapList, sitePairC6_0, ok_bind, sitePairC6_1]
  rfl

/-- eFNV result of the exclusion experiment without exclusions. -/
def efnvC6a : ExtendedFnvCorrection :=
  ⟨-2, 8 * unitConversionDefault, 5,
   [⟨"A", 1, 1, none⟩, ⟨"B", 6, 2, some 0⟩, ⟨"B", 8, 2, some 0⟩], ![0, 0, 0]⟩

/-- eFNV result of the exclusion experiment with site 2 excluded. -/
def efnvC6b : ExtendedFnvCorrection :=
  ⟨-2, 8 * unitConversionDefault, 5,
   [⟨"A", 1, 1, none⟩, ⟨"B", 6, 2, some 0⟩], ![0, 0, 0]⟩

theorem assignC6_A : assignPcPotential envC6 crC6.struct.latticeMatrix dielT (1/100)
    (-2) unitConversionDefault (effectiveRadius envC6 crC6 none)
    (⟨"A", 1, 1, none⟩, relA) = ⟨"A", 1, 1, none⟩ := by
  apply assignPcPotential_near
  norm_num [effectiveRadius, envC6, envC]

theorem assignC6_B : assignPcPotential envC6 crC6.struct.latticeMatrix dielT (1/100)
    (-2) unitConversionDefault (effectiveRadius envC6 crC6 none)
    (⟨"B", 6, 2, none⟩, relB6) = ⟨"B", 6, 2, some 0⟩ := by
  unfold assignPcPotential
  rw [if_pos (by norm_num [effectiveRadius, envC6, envC])]
  rw [if_neg (by norm_num)]
  norm_num [envC6, envC]

theorem assignC6_C : assignPcPotential envC6 crC6.struct.latticeMatrix dielT (1/100)
    (-2) unitConversionDefault (effectiveRadius envC6 crC6 none)
    (⟨"B", 8, 2, none⟩, relC6) = ⟨"B", 8, 2, some 0⟩ := by
  unfold assignPcPotential
  rw [if_pos (by norm_num [effectiveRadius, envC6, envC])]
  rw [if_neg (by norm_num)]
  norm_num [envC6, envC]

theorem doped_make_C6_nil : doped_make_efnv_correction envC6 (-2) crC6 prC6 dielT
    none (some ![0, 0, 0]) (1/100) unitConversionDefault (some []) = .ok efnvC6a := by
  apply (doped_make_efnv_correction_ok_iff envC6 (-2) crC6 prC6 dielT none
    (some ![0, 0, 0]) (1/100) unitConversionDefault (some []) efnvC6a).mpr
  refine ⟨latticeEq_matC, _, buildPairsC6_nil, ?_⟩
  rw [List.map_cons, List.map_cons, List.map_cons, List.map_nil,
    assignC6_A, assignC6_B, assignC6_C]
  unfold efnvC6a rawPointCharge effectiveRadius effectiveCoords
  norm_num [envC6, envC, crC6]

theorem doped_make_C6_none : doped_make_efnv_correction envC6 (-2) crC6 prC6 dielT
    none (some ![0, 0, 0]) (1/100) unitConversionDefault none = .ok efnvC6a := by
  apply (doped_make_efnv_correction_ok_iff envC6 (-2) crC6 prC6 dielT none
    (some ![0, 0, 0]) (1/100) unitConversionDefault none efnvC6a).mpr
  refine ⟨latticeEq_matC, _, buildPairsC6_none, ?_⟩
  rw [List.map_cons, List.map_cons, List.map_cons, List.map_nil,
    assignC6_A, assignC6_B, assignC6_C]
  unfold efnvC6a rawPointCharge effectiveRadius effectiveCoords
  norm_num [envC6, envC, crC6]

theorem doped_make_C6_ex2 : doped_make_efnv_correction envC6 (-2) crC6 prC6 dielT
    none (some ![0, 0, 0]) (1/100) unitConversionDefault (some [2]) = .ok efnvC6b := by
  apply (doped_make_efnv_correction_ok_iff envC6 (-2) crC6 prC6 dielT none
    (some ![0, 0, 0]) (1/100) unitConversionDefault (some [2]) efnvC6b).mpr
  refine ⟨latticeEq_matC, _, buildPairsC6_ex2, ?_⟩
  rw [List.map_cons, List.map_cons, List.map_nil, assignC6_A, assignC6_B]
  unfold efnvC6b rawPointCharge effectiveRadius effectiveCoords
  norm_num [envC6, envC, crC6]

theorem resolveBulk_structC6 : resolveBulkSupercell envC6 structC6 structC6 =
    .ok structC6 := by
  unfold resolveBulkSupercell
  rw [if_pos (show latticeEq structC6.latticeMatrix structC6.latticeMatrix from
    latticeEq_matC)]

theorem run_entryC6_none : get_kumagai_correction envC6 entryC6 none none none none
    none false none = .ok (.single ⟨8 * unitConversionDefault, efnvC6a⟩) := by
  apply (get_kumagai_correction_ok_iff envC6 entryC6 none none none none none
    false none (.single ⟨8 * unitConversionDefault, efnvC6a⟩)).mpr
  refine ⟨.scalar 10, dielT, [1, 3, 3], [0, 1, 1], structC6, rfl, rfl, rfl, rfl,
    resolveBulk_structC6, ?_⟩
  apply (kumagaiTail_ok_iff envC6 entryC6 none none false none dielT crC6 prC6
    (.single ⟨8 * unitConversionDefault, efnvC6a⟩)).mpr
  refine ⟨efnvC6a, ?_, rfl⟩
  have hcast : ((entryC6.charge_state : ℤ) : ℚ) = -2 := by norm_num [entryC6, entryC]
  rw [show entryC6.defect_supercell_bulk_site_coords = some ![0, 0, 0] from rfl, hcast]
  exact doped_make_C6_none

theorem run_entryC6_ex2 : get_kumagai_correction envC6 entryC6 none none (some [2])
    none none false none = .ok (.single ⟨8 * unitConversionDefault, efnvC6b⟩) := by
  apply (get_kumagai_correction_ok_iff envC6 entryC6 none none (some [2]) none none
    false none (.single ⟨8 * unitConversionDefault, efnvC6b⟩)).mpr
  refine ⟨.scalar 10, dielT, [1, 3, 3], [0, 1, 1], structC6, rfl, rfl, rfl, rfl,
    resolveBulk_structC6, ?_⟩
  apply (kumagaiTail_ok_iff envC6 entryC6 none (some [2]) false none dielT crC6 prC6
    (.single ⟨8 * unitConversionDefault, efnvC6b⟩)).mpr
  refine ⟨efnvC6b, ?_, rfl⟩
  have hcast : ((entryC6.charge_state : ℤ) : ℚ) = -2 := by norm_num [entryC6, entryC]
  rw [show entryC6.defect_supercell_bulk_site_coords = some ![0, 0, 0] from rfl, hcast]
  exact doped_make_C6_ex2

/-- A bulk lattice differing from the cubic defect lattice by ≈0.005 Å per
element while having exactly the same volume (2001/200 · 20000/2001 · 10 =
1000): inside the 0.01 rescaling tolerance, outside pymatgen equality. -/
def matB4 : Mat3 := ![![2001/200, 0, 0], ![0, 20000/2001, 0], ![0, 0, 10]]

/-- Entry whose bulk supercell carries `matB4`. -/
def entryC4 : DefectEntry := { entryC with bulk_supercell := ⟨matB4, structC.sites⟩ }

theorem not_latticeEq_B4C : ¬ latticeEq matB4 matC := by
  intro h
  have := h 0 0
  norm_num [npIsClose, matB4, matC, abs_of_pos, abs_of_nonneg] at this

theorem not_latticeEq_CB4 : ¬ latticeEq matC matB4 := by
  intro h
  have := h 0 0
  norm_num [npIsClose, matB4, matC, abs_of_pos, abs_of_nonneg] at this

theorem npAllClose_B4C : npAllClose (1/100000) (1/100) matB4 matC := by
  intro i j
  fin_cases i <;> fin_cases j <;>
    norm_num [npIsClose, matB4, matC, abs_of_pos, abs_of_nonneg]

/-- `kumagaiTail` propagates the inner `SupercellError` when the lattices of
its two calculation results differ under pymatgen equality. -/
theorem kumagaiTail_error_of_latticeNe (env : ExternalEnv) (entry : DefectEntry)
    (drr : Option ℚ) (excl : Option (List ℕ)) (plot : Bool) (fn : Option String)
    (T : Mat3) (dcr bcr : CalcResults)
    (h : ¬ latticeEq dcr.struct.latticeMatrix bcr.struct.latticeMatrix) :
    kumagaiTail env entry drr excl plot fn T dcr bcr =
      .error (.supercellError "The lattice constants for defect and perfect models are different") := by
  unfold kumagaiTail doped_make_efnv_correction
  rw [if_neg h, error_bind]

theorem run_entryC4 : get_kumagai_correction envC entryC4 none none none none none
    false none = .error
      (.supercellError "The lattice constants for defect and perfect models are different") := by
  unfold get_kumagai_correction
  rw [show getArgOrMetadata (none : Option DielectricInput) entryC4.metadata_dielectric
      "Dielectric constant" = .ok (.scalar 10) from rfl, ok_bind]
  rw [show convert_dielectric_to_tensor (.scalar 10) = .ok dielT from rfl, ok_bind]
  rw [show getSitePotentials none entryC4.metadata_defect_site_potentials "defect"
      "Defect OUTCAR (for atomic site potentials)" = .ok [1, 2] from rfl, ok_bind]
  rw [show getSitePotentials none entryC4.metadata_bulk_site_potentials "bulk"
      "Bulk OUTCAR (for atomic site potentials)" = .ok [1/2, 1] from rfl, ok_bind]
  have hres : resolveBulkSupercell envC entryC4.bulk_supercell
      entryC4.defect_supercell = .ok ⟨matB4, structC.sites⟩ := by
    unfold resolveBulkSupercell
    rw [if_neg (show ¬ latticeEq entryC4.bulk_supercell.latticeMatrix
        entryC4.defect_supercell.latticeMatrix from not_latticeEq_B4C)]
    rw [if_pos (show npAllClose (1/100000) (1/100)
        entryC4.bulk_supercell.latticeMatrix entryC4.defect_supercell.latticeMatrix
        from npAllClose_B4C)]
    rfl
  rw [hres, ok_bind]
  exact kumagaiTail_error_of_latticeNe envC entryC4 none none false none dielT
    ⟨entryC4.defect_supercell, [1, 2]⟩ ⟨⟨matB4, structC.sites⟩, [1/2, 1]⟩
    not_latticeEq_CB4

/-- `entryC` stripped of its cached dielectric. -/
def entryNoDiel : DefectEntry := { entryC with metadata_dielectric := none }

/-! ## Witnesses and counterexamples -/

/-- Witness for C1: the concrete charge −2 Kumagai run. -/
theorem claim_C1_witness :
    (entryC.charge_state ≠ 0 ∧
     get_kumagai_correction envC entryC none none none none none false none =
       .ok retC) ∧
    (retC.result.correction_energy = retC.result.metadata_efnv.point_charge_correction ∧
     retC.result.correction_energy =
       ExtendedFnvCorrection.correction_energy retC.result.metadata_efnv) :=
  ⟨⟨by decide, run_entryC⟩,
   claim_C1_kumagai_energy_is_point_charge_term envC entryC none none none none
     none false none retC (by decide) run_entryC⟩

/-- Witness for C2: the concrete charge −2 eFNV computation. -/
theorem claim_C2_witness :
    (doped_make_efnv_correction envC (-2) crC prC dielT none (some ![0, 0, 0])
      (1/100) unitConversionDefault none = .ok efnvC) ∧
    ((-2 : ℚ) ≠ 0 → efnvC.point_charge_correction =
      -(envC.ewaldLatticeEnergy crC.struct.latticeMatrix dielT (1/100)) * (-2) ^ 2
        * (180.95128169876497 : ℚ)) ∧
    ((-2 : ℚ) = 0 → efnvC.point_charge_correction = 0) := by
  have h := claim_C2_point_charge_formula envC (-2) crC prC dielT none
    (some ![0, 0, 0]) (1/100) none efnvC doped_make_entryC
  exact ⟨doped_make_entryC, h.1, h.2⟩

/-- Counterexample for C3 as stated: with q = 0, the site inside the defect
region radius keeps `pc_potential = None`, so not *all* model potentials are
set to 0. -/
theorem claim_C3_counterexample :
    get_kumagai_correction envC entry0 none none none none none false none =
      .ok (.single res0) ∧
    ¬ (∀ s ∈ res0.metadata_efnv.sites, s.pc_potential = some 0) := by
  refine ⟨run_entry0, fun h => ?_⟩
  have := h ⟨"A", 1, 1/2, none⟩ (by simp [res0, efnv0])
  simp at this

/-- Witness for the amended C3: the concrete q = 0 runs of both methods. -/
theorem claim_C3_witness :
    (entry0.charge_state = 0 ∧
     get_kumagai_correction envC entry0 none none none none none false none =
       .ok (.single res0) ∧
     get_freysoldt_correction engC entry0 none none none false none none =
       .ok (.single ⟨0, fun _ => ⟨none⟩⟩)) ∧
    (KumagaiReturn.single res0).result.correction_energy = 0 ∧
    (FreysoldtReturn.single ⟨0, fun _ => ⟨none⟩⟩).result.correction_energy = 0 := by
  have h := claim_C3_amended_zero_charge_behaviour envC engC entry0 entry0 none none
    none none none none none none false false none none none (.single res0)
    (.single ⟨0, fun _ => ⟨none⟩⟩) rfl rfl run_entry0 run_freysoldt_entry0
  exact ⟨⟨rfl, run_entry0, run_freysoldt_entry0⟩, h.1, h.2.2⟩

/-- Counterexample for C4 as stated: bulk and defect lattices agree within the
0.01 Å tolerance, yet after the volume rescale (the identity here, volumes
being equal) the inner pydefect check still raises `SupercellError` — not a
`ValueError`, and no computation proceeds. -/
theorem claim_C4_counterexample :
    ¬ latticeEq entryC4.bulk_supercell.latticeMatrix
        entryC4.defect_supercell.latticeMatrix ∧
    npAllClose (1/100000) (1/100) entryC4.bulk_supercell.latticeMatrix
      entryC4.defect_supercell.latticeMatrix ∧
    get_kumagai_correction envC entryC4 none none none none none false none =
      .error (.supercellError "The lattice constants for defect and perfect models are different") ∧
    CorrErr.isValueError
      (.supercellError "The lattice constants for defect and perfect models are different")
      = false :=
  ⟨not_latticeEq_B4C, npAllClose_B4C, run_entryC4, rfl⟩

/-- Witness for the amended C4: the same concrete within-tolerance input,
routed through the amended theorem. -/
theorem claim_C4_witness :
    (getArgOrMetadata none entryC4.metadata_dielectric "Dielectric constant" =
       .ok (.scalar 10) ∧
     convert_dielectric_to_tensor (.scalar 10) = .ok dielT) ∧
    get_kumagai_correction envC entryC4 none none none none none false none =
      .error (.supercellError "The lattice constants for defect and perfect models are different") := by
  have h := claim_C4_amended_lattice_check envC entryC4 none none none none none
    false none (.scalar 10) dielT [1, 2] [1/2, 1] rfl rfl rfl rfl
  exact ⟨⟨rfl, rfl⟩,
    (h.2.2 not_latticeEq_B4C npAllClose_B4C).2 not_latticeEq_CB4⟩

/-- Witness for C5: the dielectric 9.13 in its three equivalent shapes. -/
theorem claim_C5_witness :
    (0 : ℚ) < 913/100 ∧
    convert_dielectric_to_tensor (.scalar (913/100)) =
      convert_dielectric_to_tensor (.vec [913/100, 913/100, 913/100]) ∧
    convert_dielectric_to_tensor (.scalar (913/100)) =
      convert_dielectric_to_tensor
        (.mat [[913/100, 0, 0], [0, 913/100, 0], [0, 0, 913/100]]) := by
  have h := claim_C5_dielectric_normalization (913/100) (by norm_num)
  exact ⟨by norm_num, h.1.1, h.1.2⟩

/-- Counterexample for C6 as stated: excluding site 2, which was inside the
sampling region (it carries a model potential and sits beyond the radius),
leaves the fitted alignment constant unchanged, because its sampled value
equals the mean of the remaining sampled sites. -/
theorem claim_C6_counterexample :
    get_kumagai_correction envC6 entryC6 none none none none none false none =
      .ok (.single ⟨8 * unitConversionDefault, efnvC6a⟩) ∧
    get_kumagai_correction envC6 entryC6 none none (some [2]) none none false none =
      .ok (.single ⟨8 * unitConversionDefault, efnvC6b⟩) ∧
    (efnvC6a.sites.getD 2 ⟨"", 0, 0, none⟩).pc_potential.isSome = true ∧
    (efnvC6a.sites.getD 2 ⟨"", 0, 0, none⟩).distance >
      efnvC6a.defect_region_radius ∧
    efnvC6b.point_charge_correction = efnvC6a.point_charge_correction ∧
    efnvC6a.ave_pot_diff = efnvC6b.ave_pot_diff := by
  refine ⟨run_entryC6_none, run_entryC6_ex2, rfl, by norm_num [efnvC6a], rfl, ?_⟩
  norm_num [ExtendedFnvCorrection.ave_pot_diff, efnvC6a, efnvC6b, sampleValues,
    listMean, List.filterMap_cons]

/-- Witness for the amended C6: the same concrete world, with site index 2
split off the atom mapping. -/
theorem claim_C6_witness :
    (envC6.atomMapping crC6.struct prC6.struct = [(0, 0), (1, 1)] ++ (2, 2) :: [] ∧
     ([] : List ℕ).contains 2 = false ∧
     doped_make_efnv_correction envC6 (-2) crC6 prC6 dielT none (some ![0, 0, 0])
       (1/100) unitConversionDefault (some []) = .ok efnvC6a) ∧
    efnvC6a.point_charge_correction = efnvC6b.point_charge_correction := by
  have h := claim_C6_amended_exclusion_effect envC6 (-2) crC6 prC6 dielT none
    (some ![0, 0, 0]) (1/100) unitConversionDefault [] 2 2 [(0, 0), (1, 1)] []
    efnvC6a rfl (by decide) (by simp) rfl doped_make_C6_nil
  exact ⟨⟨rfl, rfl, doped_make_C6_nil⟩,
    h.1 (some []) (some [2]) efnvC6a efnvC6b doped_make_C6_nil doped_make_C6_ex2⟩

/-- Witness for C7: the concrete charge −2 eFNV computation. -/
theorem claim_C7_witness :
    ((-2 : ℚ) ≠ 0 ∧
     doped_make_efnv_correction envC (-2) crC prC dielT none (some ![0, 0, 0])
       (1/100) unitConversionDefault none = .ok efnvC) ∧
    efnvC.defect_region_radius =
      (none : Option ℚ).getD (envC.calcMaxSphereRadius crC.struct.latticeMatrix) ∧
    (∀ s ∈ efnvC.sites,
      s.pc_potential.isSome = true ↔ s.distance > efnvC.defect_region_radius) := by
  have h := claim_C7_site_model_potentials envC (-2) crC prC dielT none
    (some ![0, 0, 0]) (1/100) unitConversionDefault none efnvC (by norm_num)
    doped_make_entryC
  exact ⟨⟨by norm_num, doped_make_entryC⟩, h.1, h.2.1⟩

/-- Witness for C8: both entry points on an entry with no dielectric anywhere. -/
theorem claim_C8_witness :
    get_kumagai_correction envC entryNoDiel none none none none none false none =
      .error (.missingInput "Dielectric constant") ∧
    get_freysoldt_correction engC entryNoDiel none none none false none none =
      .error (.missingInput "Dielectric constant") :=
  ⟨claim_C8_missing_input_errors.1 envC entryNoDiel none none none none false
    none rfl,
   claim_C8_missing_input_errors.2.1 engC entryNoDiel none none false none
    none rfl⟩

/-- Witness for C9: plot data with empty `pot_plot_data`. -/
theorem claim_C9_witness :
    (FnvPlotAxisData.mk none).pot_plot_data = none ∧
    plot_FNV ⟨none⟩ = .error (.valueError "Input plot_data has no pot_plot_data entry. Cannot plot FNV potential alignment before running correction!") :=
  ⟨rfl, (claim_C9_plot_FNV_guard ⟨none⟩ rfl).1⟩

/-- Counterexample for C10 as stated: requesting a plot for the neutral (q = 0)
FNV run raises the `plot_FNV` `ValueError` rather than returning a
(result, figure) pair. -/
theorem claim_C10_counterexample :
    get_freysoldt_correction engC entry0 none none none true none none =
      .error (.valueError "Input plot_data has no pot_plot_data entry. Cannot plot FNV potential alignment before running correction!") := rfl

/-- Witness for the amended C10: the no-plot Kumagai return shape, and the
q = 0 error of the FNV plot path. -/
theorem claim_C10_witness :
    ((false = false ∧ (none : Option String) = none) →
      ∃ r, retC = KumagaiReturn.single r) ∧
    get_freysoldt_correction engC entry0 none none none true none none =
      .error (.valueError "Input plot_data has no pot_plot_data entry. Cannot plot FNV potential alignment before running correction!") := by
  have h := claim_C10_amended_return_shape
  exact ⟨(h.1 envC entryC none none none none none false none retC run_entryC).1,
    h.2.2.2.2 engC entry0 none none none true none none (.scalar 10) dielT lpC lpB
      rfl rfl rfl rfl rfl (Or.inl rfl)⟩

end Doped

